import Mathlib

/-!
Shallow embedding of the Supabase middleware layer
(`src/lib/middleware.ts` of the agri-shield frontend).

Modelling conventions:
* JavaScript `Date.now()` values and durations are `Int` (millisecond
  timestamps); JS subtraction/comparison on numbers is `Int` arithmetic.
* JS `Map` is an insertion-ordered association list with `mapGet`,
  `mapSet`, `mapDelete` mirroring `get` / `set` / `delete`.
* The network (supabase query / backend fetch), together with the
  per-attempt `withTimeout` race, is an oracle
  `net : Nat → Int → Except String α`: invocation index (how many network
  attempts this call has issued so far, tracked in `MWState.netCalls`)
  and the timeout in ms passed to `withTimeout`, returning either the
  resolved payload or the thrown error's message (a timeout rejection is
  `Except.error "Request timeout"` like any other failure).
* `JSON.stringify` is modelled on a JSON value type `JVal`; JS object
  key insertion order is preserved, as `JSON.stringify` does.
-/

mutual

/-- JSON-like values: the `any` payloads and filter records flowing
through the middleware.  Arrays and objects use mutually inductive
spine types so that all functions below are structurally recursive
(hence kernel-computable). -/
inductive JVal : Type where
  | jnull : JVal
  | jbool : Bool → JVal
  | jnum : Int → JVal
  | jstr : String → JVal
  | jarr : JArr → JVal
  | jobj : JObj → JVal

/-- Spine of a JSON array. -/
inductive JArr : Type where
  | nil : JArr
  | cons : JVal → JArr → JArr

/-- Spine of a JSON object: insertion-ordered (key, value) fields. -/
inductive JObj : Type where
  | nil : JObj
  | cons : String → JVal → JObj → JObj

end

mutual

/-- Decidable equality on JSON values. -/
def JVal.beq : JVal → JVal → Bool
  | .jnull, .jnull => true
  | .jbool a, .jbool b => a == b
  | .jnum a, .jnum b => a == b
  | .jstr a, .jstr b => a == b
  | .jarr a, .jarr b => JArr.beq a b
  | .jobj a, .jobj b => JObj.beq a b
  | _, _ => false

/-- Decidable equality on JSON array spines. -/
def JArr.beq : JArr → JArr → Bool
  | .nil, .nil => true
  | .cons a as, .cons b bs => JVal.beq a b && JArr.beq as bs
  | _, _ => false

/-- Decidable equality on JSON object spines. -/
def JObj.beq : JObj → JObj → Bool
  | .nil, .nil => true
  | .cons k v fs, .cons k2 v2 fs2 => k == k2 && JVal.beq v v2 && JObj.beq fs fs2
  | _, _ => false

end

mutual

theorem jval_beq_iff : ∀ a b : JVal, JVal.beq a b = true ↔ a = b
  | .jnull, .jnull => by simp [JVal.beq]
  | .jbool a, .jbool b => by simp [JVal.beq]
  | .jnum a, .jnum b => by simp [JVal.beq]
  | .jstr a, .jstr b => by simp [JVal.beq]
  | .jarr a, .jarr b => by simp [JVal.beq, jarr_beq_iff a b]
  | .jobj a, .jobj b => by simp [JVal.beq, jobj_beq_iff a b]
  | .jnull, .jbool _ | .jnull, .jnum _ | .jnull, .jstr _ | .jnull, .jarr _ | .jnull, .jobj _
  | .jbool _, .jnull | .jbool _, .jnum _ | .jbool _, .jstr _ | .jbool _, .jarr _ | .jbool _, .jobj _
  | .jnum _, .jnull | .jnum _, .jbool _ | .jnum _, .jstr _ | .jnum _, .jarr _ | .jnum _, .jobj _
  | .jstr _, .jnull | .jstr _, .jbool _ | .jstr _, .jnum _ | .jstr _, .jarr _ | .jstr _, .jobj _
  | .jarr _, .jnull | .jarr _, .jbool _ | .jarr _, .jnum _ | .jarr _, .jstr _ | .jarr _, .jobj _
  | .jobj _, .jnull | .jobj _, .jbool _ | .jobj _, .jnum _ | .jobj _, .jstr _ | .jobj _, .jarr _ => by
    simp [JVal.beq]

theorem jarr_beq_iff : ∀ a b : JArr, JArr.beq a b = true ↔ a = b
  | .nil, .nil => by simp [JArr.beq]
  | .cons a as, .cons b bs => by
    simp [JArr.beq, jval_beq_iff a b, jarr_beq_iff as bs]
  | .nil, .cons _ _ | .cons _ _, .nil => by simp [JArr.beq]

theorem jobj_beq_iff : ∀ a b : JObj, JObj.beq a b = true ↔ a = b
  | .nil, .nil => by simp [JObj.beq]
  | .cons k v fs, .cons k2 v2 fs2 => by
    simp [JObj.beq, jval_beq_iff v v2, jobj_beq_iff fs fs2, and_assoc]
  | .nil, .cons _ _ _ | .cons _ _ _, .nil => by simp [JObj.beq]

end

instance : DecidableEq JVal := fun a b =>
  decidable_of_iff (JVal.beq a b = true) (jval_beq_iff a b)

instance : DecidableEq JArr := fun a b =>
  decidable_of_iff (JArr.beq a b = true) (jarr_beq_iff a b)

instance : DecidableEq JObj := fun a b =>
  decidable_of_iff (JObj.beq a b = true) (jobj_beq_iff a b)

mutual

/-- Models `JSON.stringify` on `JVal`: object fields are emitted in
insertion order (as `JSON.stringify` does for string keys); string
escaping is not modelled (keys/values used by the middleware are plain
identifiers). -/
def jsonStringify : JVal → String
  | .jnull => "null"
  | .jbool b => if b then "true" else "false"
  | .jnum n => toString n
  | .jstr s => "\"" ++ s ++ "\""
  | .jarr xs => "[" ++ jsonStringifyArr xs ++ "]"
  | .jobj fs => "\x7b" ++ jsonStringifyObj fs ++ "\x7d"

/-- Comma-separated serialization of a JSON array spine. -/
def jsonStringifyArr : JArr → String
  | .nil => ""
  | .cons x .nil => jsonStringify x
  | .cons x (.cons y rest) => jsonStringify x ++ "," ++ jsonStringifyArr (.cons y rest)

/-- Comma-separated serialization of a JSON object spine, in insertion
order. -/
def jsonStringifyObj : JObj → String
  | .nil => ""
  | .cons k v .nil => "\"" ++ k ++ "\":" ++ jsonStringify v
  | .cons k v (.cons k2 v2 rest) =>
      "\"" ++ k ++ "\":" ++ jsonStringify v ++ "," ++ jsonStringifyObj (.cons k2 v2 rest)

end

/-- Models `str.startsWith(p)` on JS strings (as character-list
prefixes). -/
def jsStartsWith (s p : String) : Bool :=
  p.data.isPrefixOf s.data

/-- Lookup in a JS `Map` modelled as an insertion-ordered association
list (`Map.prototype.get`). -/
def mapGet {α : Type} (m : List (String × α)) (k : String) : Option α :=
  (m.find? (fun p => p.1 == k)).map (fun p => p.2)

/-- Update in a JS `Map`: replaces the value in place when the key is
present, otherwise appends the new binding at the end
(`Map.prototype.set` keeps first-insertion order). -/
def mapSet {α : Type} (m : List (String × α)) (k : String) (v : α) :
    List (String × α) :=
  if m.any (fun p => p.1 == k) then
    m.map (fun p => if p.1 == k then (k, v) else p)
  else
    m ++ [(k, v)]

/-- Per-call configuration overrides (`MiddlewareOptions` interface);
`Option` models TypeScript optional fields (absent = `none`). -/
structure MiddlewareOptions where
  logRequests : Option Bool := none
  enableRetry : Option Bool := none
  maxRetries : Option Nat := none
  timeout : Option Int := none
  cache : Option Bool := none
  cacheDuration : Option Int := none

/-- Configuration defaults (`DEFAULT_OPTIONS`). -/
def DEFAULT_OPTIONS : MiddlewareOptions :=
  { logRequests := some true
    enableRetry := some true
    maxRetries := some 3
    timeout := some 30000
    cache := some true
    cacheDuration := some 300000 }

/-- Object spread `{ ...d, ...o }` on options: a field present in `o`
overrides `d`. -/
def mergeOptions (d o : MiddlewareOptions) : MiddlewareOptions :=
  { logRequests := o.logRequests <|> d.logRequests
    enableRetry := o.enableRetry <|> d.enableRetry
    maxRetries := o.maxRetries <|> d.maxRetries
    timeout := o.timeout <|> d.timeout
    cache := o.cache <|> d.cache
    cacheDuration := o.cacheDuration <|> d.cacheDuration }

/-- JS `x || d` for an optional number: `undefined` and `0` are falsy. -/
def jsOrNat (o : Option Nat) (d : Nat) : Nat :=
  match o with
  | some n => if n = 0 then d else n
  | none => d

/-- JS `x || d` for an optional millisecond value: `undefined` and `0`
are falsy. -/
def jsOrInt (o : Option Int) (d : Int) : Int :=
  match o with
  | some n => if n = 0 then d else n
  | none => d

/-- JS truthiness of an optional boolean (`undefined` is falsy). -/
def jsTruthy (o : Option Bool) : Bool :=
  o.getD false

/-- Uniform response envelope (`MiddlewareResponse<T>`): `data`/`error`
use `Option` for `T | null`, `status` is the literal status string. -/
structure MiddlewareResponse (α : Type) where
  data : Option α
  error : Option String
  status : String
  timestamp : Int
  duration : Int
  retries : Nat

/-- One metrics record (`RequestMetrics`). -/
structure RequestMetrics where
  method : String
  table : String
  timestamp : Int
  duration : Int
  status : String
  error : Option String

/-- One cache slot of `requestCache`: `{ data, timestamp }`. -/
structure CacheEntry where
  data : JVal
  timestamp : Int
deriving DecidableEq

/-- The middleware module's shared mutable state: `requestCache`,
`rateLimitMap` and `requestMetrics`, plus `netCalls`, a ghost counter
of how many network attempts have been issued (used to drive the
network oracle and to state attempt-count properties). -/
structure MWState where
  requestCache : List (String × CacheEntry)
  rateLimitMap : List (String × List Int)
  requestMetrics : List RequestMetrics
  netCalls : Nat

/-- Rate limiting ceiling (`RATE_LIMIT_REQUESTS`). -/
def RATE_LIMIT_REQUESTS : Nat := 100

/-- Rate limiting window in ms (`RATE_LIMIT_WINDOW`). -/
def RATE_LIMIT_WINDOW : Int := 60000

/-- `generateCacheKey(table, operation, params)`:
`` `${table}:${operation}:${JSON.stringify(params || {})}` ``. -/
def generateCacheKey (table operation : String) (params : Option JVal) : String :=
  table ++ ":" ++ operation ++ ":" ++ jsonStringify (params.getD (.jobj .nil))

/-- `checkRateLimit(key)`: prunes timestamps older than the window,
denies when the pruned count is at the ceiling (leaving the stored map
untouched), otherwise records `now` and admits.  Returns the admission
bit and the updated `rateLimitMap`. -/
def checkRateLimit (now : Int) (key : String)
    (rateLimitMap : List (String × List Int)) :
    Bool × List (String × List Int) :=
  let timestamps := (mapGet rateLimitMap key).getD []
  let validTimestamps := timestamps.filter (fun ts => now - ts < RATE_LIMIT_WINDOW)
  if RATE_LIMIT_REQUESTS ≤ validTimestamps.length then
    (false, rateLimitMap)
  else
    (true, mapSet rateLimitMap key (validTimestamps ++ [now]))

/-- `logMetric(method, table, duration, status, error?)`: appends one
record, then drops the oldest record when the length exceeds 1000
(`push` then `shift`).  The conditional `console.log` has no modelled
effect.  `timestamp` is the `Date.now()` at record creation. -/
def logMetric (method table : String) (timestamp duration : Int)
    (status : String) (err : Option String)
    (ms : List RequestMetrics) : List RequestMetrics :=
  let ms2 := ms ++ [{ method := method, table := table, timestamp := timestamp,
                      duration := duration, status := status, error := err }]
  if 1000 < ms2.length then ms2.tail else ms2

/-- Outcome triple of `withRetry`: `{ data, error, retries }`. -/
structure RetryOutcome (α : Type) where
  data : Option α
  error : Option String
  retries : Nat

/-- Loop body of `withRetry`'s `for (attempt = 0; attempt <= maxRetries;
attempt++)`: `attempt` is the current index, `remaining` the number of
iterations still allowed after this one (`maxRetries - attempt`), the
`Nat` accumulator collects the backoff delays `2^attempt * 1000` slept
between failed attempts.  A successful attempt returns immediately with
`retries := attempt`; after the last failure the last error is returned
with `retries := maxRetries`. -/
def withRetryGo {α : Type} (fn : MWState → Except String α × MWState)
    (maxRetries attempt remaining : Nat) (delayAcc : Nat) (w : MWState) :
    RetryOutcome α × MWState × Nat :=
  match fn w with
  | (Except.ok d, w2) => (⟨some d, none, attempt⟩, w2, delayAcc)
  | (Except.error e, w2) =>
    match remaining with
    | 0 => (⟨none, some e, maxRetries⟩, w2, delayAcc)
    | Nat.succ r =>
        withRetryGo fn maxRetries (attempt + 1) r (delayAcc + 2 ^ attempt * 1000) w2

/-- `withRetry(fn, maxRetries = DEFAULT_OPTIONS.maxRetries || 3)`:
returns the outcome, the state after all invocations of `fn`, and the
total backoff delay slept. -/
def withRetry {α : Type} (fn : MWState → Except String α × MWState)
    (maxRetries : Option Nat) (w : MWState) :
    RetryOutcome α × MWState × Nat :=
  let m := maxRetries.getD (jsOrNat DEFAULT_OPTIONS.maxRetries 3)
  withRetryGo fn m 0 m 0 w

/-- `withCache(cacheKey, fn, duration = DEFAULT_OPTIONS.cacheDuration ||
300000)`: a fresh entry (age strictly below `duration`) is returned
without running `fn`; otherwise (missing or stale — stale entries are
ignored, not removed) `fn` runs and, on success only, overwrites the
slot with timestamp `now`. -/
def withCache (cacheKey : String) (fn : MWState → Except String JVal × MWState)
    (duration : Option Int) (now : Int) (w : MWState) :
    Except String JVal × MWState :=
  let dur := duration.getD (jsOrInt DEFAULT_OPTIONS.cacheDuration 300000)
  let run : MWState → Except String JVal × MWState := fun w1 =>
    match fn w1 with
    | (Except.ok d, w2) =>
        (Except.ok d,
         { w2 with requestCache := mapSet w2.requestCache cacheKey ⟨d, now⟩ })
    | (Except.error e, w2) => (Except.error e, w2)
  match mapGet w.requestCache cacheKey with
  | some cached =>
      if now - cached.timestamp < dur then (Except.ok cached.data, w)
      else run w
  | none => run w

/-- The `executeQuery` closure of `middlewareSelect`: one supabase query
attempt through `withTimeout`, abstracted by the network oracle (the
`if (error) throw error` is the oracle's `Except.error`); issuing the
attempt bumps the ghost invocation counter. -/
def executeQuery (net : Nat → Int → Except String JVal) (timeoutMs : Int)
    (w : MWState) : Except String JVal × MWState :=
  (net w.netCalls timeoutMs, { w with netCalls := w.netCalls + 1 })

/-- The `executeInsert` closure of `middlewareInsert` (insert + select
through `withTimeout`), abstracted like `executeQuery`. -/
def executeInsert (net : Nat → Int → Except String JVal) (timeoutMs : Int)
    (w : MWState) : Except String JVal × MWState :=
  (net w.netCalls timeoutMs, { w with netCalls := w.netCalls + 1 })

/-- The `executeUpdate` closure of `middlewareUpdate`, abstracted like
`executeQuery`. -/
def executeUpdate (net : Nat → Int → Except String JVal) (timeoutMs : Int)
    (w : MWState) : Except String JVal × MWState :=
  (net w.netCalls timeoutMs, { w with netCalls := w.netCalls + 1 })

/-- The `executeDelete` closure of `middlewareDelete`: resolves to
`undefined`, errors are thrown (`Except.error`). -/
def executeDelete (net : Nat → Int → Except String Unit) (timeoutMs : Int)
    (w : MWState) : Except String Unit × MWState :=
  (net w.netCalls timeoutMs, { w with netCalls := w.netCalls + 1 })

/-- The `executeSignOut` closure of `middlewareAuthSignOut` (backend
`POST /auth/signout` plus local supabase sign-out; no `withTimeout` in
the source), abstracted by a network oracle without a timeout
argument. -/
def executeSignOut (net : Nat → Except String Unit) (w : MWState) :
    Except String Unit × MWState :=
  (net w.netCalls, { w with netCalls := w.netCalls + 1 })

/-- The cache-invalidation loop run by the mutations on success:
`Array.from(requestCache.keys()).forEach(key => if
key.startsWith(table + ":") then requestCache.delete(key))`. -/
def clearTableCache (table : String) (c : List (String × CacheEntry)) :
    List (String × CacheEntry) :=
  c.filter (fun p => !(jsStartsWith p.1 (table ++ ":")))


/-- Try-block of `middlewareSelect` (everything from the `withRetry`
call to the returned envelope).  `Except` mirrors JS exception flow:
the block could in principle throw into the surrounding catch, but
`withRetry` converts every attempt failure into a value, so this block
in fact always returns `Except.ok`. -/
def middlewareSelectBody (table : String) (filters : Option JVal)
    (mergedOptions : MiddlewareOptions)
    (net : Nat → Int → Except String JVal)
    (startTime now elapsed : Int) (w1 : MWState) :
    Except String (MiddlewareResponse JVal × MWState) :=
  let cacheKey := generateCacheKey table "select" filters
  let tmo := jsOrInt mergedOptions.timeout 30000
  let attemptFn : MWState → Except String JVal × MWState :=
    if jsTruthy mergedOptions.cache then
      fun s => withCache cacheKey (executeQuery net tmo) mergedOptions.cacheDuration now s
    else
      executeQuery net tmo
  let res := withRetry attemptFn mergedOptions.maxRetries w1
  let out := res.1
  let w2 := res.2.1
  let duration := (now + elapsed) - startTime
  match out.error with
  | some e =>
      let w3 := { w2 with
        requestMetrics := logMetric "SELECT" table (now + elapsed) duration "error" (some e) w2.requestMetrics }
      Except.ok
        ({ data := none, error := some e,
           status := if jsOrNat mergedOptions.maxRetries 3 ≤ out.retries then
               "retry_exhausted" else "error",
           timestamp := startTime, duration := duration, retries := out.retries }, w3)
  | none =>
      let w3 := { w2 with
        requestMetrics := logMetric "SELECT" table (now + elapsed) duration "success" none w2.requestMetrics }
      Except.ok
        ({ data := out.data, error := none, status := "success",
           timestamp := startTime, duration := duration, retries := out.retries }, w3)

/-- `middlewareSelect(table, columns, filters, options)`.  `now` is
`Date.now()` at entry, `elapsed` the wall-clock time the call consumed
(so the trailing `Date.now()` is `now + elapsed`); `net` is the network
oracle.  The `columns` argument only shapes the abstracted supabase
query and is omitted.  Rate-limit denial returns immediately with the
error envelope; otherwise the try-block result is returned, with the
dead catch arm mapped to the `"timeout"` envelope it would build. -/
def middlewareSelect (table : String) (filters : Option JVal)
    (options : MiddlewareOptions) (net : Nat → Int → Except String JVal)
    (now elapsed : Int) (w : MWState) : MiddlewareResponse JVal × MWState :=
  let startTime := now
  let mergedOptions := mergeOptions DEFAULT_OPTIONS options
  let rl := checkRateLimit now (table ++ ":select") w.rateLimitMap
  let w1 := { w with rateLimitMap := rl.2 }
  if rl.1 then
    match middlewareSelectBody table filters mergedOptions net startTime now elapsed w1 with
    | Except.ok r => r
    | Except.error e =>
        let duration := (now + elapsed) - startTime
        let w2 := { w1 with
          requestMetrics := logMetric "SELECT" table (now + elapsed) duration "timeout" (some e) w1.requestMetrics }
        ({ data := none, error := some e, status := "timeout",
           timestamp := startTime, duration := duration, retries := 0 }, w2)
  else
    let w2 := { w1 with
      requestMetrics := logMetric "SELECT" table now 0 "rate_limited" (some "Rate limit exceeded") w1.requestMetrics }
    ({ data := none, error := some "Rate limit exceeded", status := "error",
       timestamp := startTime, duration := 0, retries := 0 }, w2)

/-- Try-block of `middlewareInsert`: retry the insert; on failure return
the error envelope (the cache-invalidation loop is NOT reached); on
success log, clear the table's cache partition, and return the success
envelope. -/
def middlewareInsertBody (table : String) (mergedOptions : MiddlewareOptions)
    (net : Nat → Int → Except String JVal)
    (startTime now elapsed : Int) (w1 : MWState) :
    Except String (MiddlewareResponse JVal × MWState) :=
  let tmo := jsOrInt mergedOptions.timeout 30000
  let res := withRetry (executeInsert net tmo) mergedOptions.maxRetries w1
  let out := res.1
  let w2 := res.2.1
  let duration := (now + elapsed) - startTime
  match out.error with
  | some e =>
      let w3 := { w2 with
        requestMetrics := logMetric "INSERT" table (now + elapsed) duration "error" (some e) w2.requestMetrics }
      Except.ok
        ({ data := none, error := some e,
           status := if jsOrNat mergedOptions.maxRetries 3 ≤ out.retries then
               "retry_exhausted" else "error",
           timestamp := startTime, duration := duration, retries := out.retries }, w3)
  | none =>
      let w3 := { w2 with
        requestMetrics := logMetric "INSERT" table (now + elapsed) duration "success" none w2.requestMetrics }
      let w4 := { w3 with requestCache := clearTableCache table w3.requestCache }
      Except.ok
        ({ data := out.data, error := none, status := "success",
           timestamp := startTime, duration := duration, retries := out.retries }, w4)

/-- `middlewareInsert(table, payload, options)`; `payload` only shapes
the abstracted supabase insert and is omitted. -/
def middlewareInsert (table : String) (options : MiddlewareOptions)
    (net : Nat → Int → Except String JVal) (now elapsed : Int) (w : MWState) :
    MiddlewareResponse JVal × MWState :=
  let startTime := now
  let mergedOptions := mergeOptions DEFAULT_OPTIONS options
  let rl := checkRateLimit now (table ++ ":insert") w.rateLimitMap
  let w1 := { w with rateLimitMap := rl.2 }
  if rl.1 then
    match middlewareInsertBody table mergedOptions net startTime now elapsed w1 with
    | Except.ok r => r
    | Except.error e =>
        let duration := (now + elapsed) - startTime
        let w2 := { w1 with
          requestMetrics := logMetric "INSERT" table (now + elapsed) duration "timeout" (some e) w1.requestMetrics }
        ({ data := none, error := some e, status := "timeout",
           timestamp := startTime, duration := duration, retries := 0 }, w2)
  else
    let w2 := { w1 with
      requestMetrics := logMetric "INSERT" table now 0 "rate_limited" (some "Rate limit exceeded") w1.requestMetrics }
    ({ data := none, error := some "Rate limit exceeded", status := "error",
       timestamp := startTime, duration := 0, retries := 0 }, w2)

/-- Try-block of `middlewareUpdate`, structured like
`middlewareInsertBody`. -/
def middlewareUpdateBody (table : String) (mergedOptions : MiddlewareOptions)
    (net : Nat → Int → Except String JVal)
    (startTime now elapsed : Int) (w1 : MWState) :
    Except String (MiddlewareResponse JVal × MWState) :=
  let tmo := jsOrInt mergedOptions.timeout 30000
  let res := withRetry (executeUpdate net tmo) mergedOptions.maxRetries w1
  let out := res.1
  let w2 := res.2.1
  let duration := (now + elapsed) - startTime
  match out.error with
  | some e =>
      let w3 := { w2 with
        requestMetrics := logMetric "UPDATE" table (now + elapsed) duration "error" (some e) w2.requestMetrics }
      Except.ok
        ({ data := none, error := some e,
           status := if jsOrNat mergedOptions.maxRetries 3 ≤ out.retries then
               "retry_exhausted" else "error",
           timestamp := startTime, duration := duration, retries := out.retries }, w3)
  | none =>
      let w3 := { w2 with
        requestMetrics := logMetric "UPDATE" table (now + elapsed) duration "success" none w2.requestMetrics }
      let w4 := { w3 with requestCache := clearTableCache table w3.requestCache }
      Except.ok
        ({ data := out.data, error := none, status := "success",
           timestamp := startTime, duration := duration, retries := out.retries }, w4)

/-- `middlewareUpdate(table, updates, filters, options)`; `updates` and
`filters` only shape the abstracted supabase update and are omitted. -/
def middlewareUpdate (table : String) (options : MiddlewareOptions)
    (net : Nat → Int → Except String JVal) (now elapsed : Int) (w : MWState) :
    MiddlewareResponse JVal × MWState :=
  let startTime := now
  let mergedOptions := mergeOptions DEFAULT_OPTIONS options
  let rl := checkRateLimit now (table ++ ":update") w.rateLimitMap
  let w1 := { w with rateLimitMap := rl.2 }
  if rl.1 then
    match middlewareUpdateBody table mergedOptions net startTime now elapsed w1 with
    | Except.ok r => r
    | Except.error e =>
        let duration := (now + elapsed) - startTime
        let w2 := { w1 with
          requestMetrics := logMetric "UPDATE" table (now + elapsed) duration "timeout" (some e) w1.requestMetrics }
        ({ data := none, error := some e, status := "timeout",
           timestamp := startTime, duration := duration, retries := 0 }, w2)
  else
    let w2 := { w1 with
      requestMetrics := logMetric "UPDATE" table now 0 "rate_limited" (some "Rate limit exceeded") w1.requestMetrics }
    ({ data := none, error := some "Rate limit exceeded", status := "error",
       timestamp := startTime, duration := 0, retries := 0 }, w2)

/-- Try-block of `middlewareDelete`: like `middlewareInsertBody`, with
a `void` payload (the success envelope carries `data: undefined`). -/
def middlewareDeleteBody (table : String) (mergedOptions : MiddlewareOptions)
    (net : Nat → Int → Except String Unit)
    (startTime now elapsed : Int) (w1 : MWState) :
    Except String (MiddlewareResponse Unit × MWState) :=
  let tmo := jsOrInt mergedOptions.timeout 30000
  let res := withRetry (executeDelete net tmo) mergedOptions.maxRetries w1
  let out := res.1
  let w2 := res.2.1
  let duration := (now + elapsed) - startTime
  match out.error with
  | some e =>
      let w3 := { w2 with
        requestMetrics := logMetric "DELETE" table (now + elapsed) duration "error" (some e) w2.requestMetrics }
      Except.ok
        ({ data := none, error := some e,
           status := if jsOrNat mergedOptions.maxRetries 3 ≤ out.retries then
               "retry_exhausted" else "error",
           timestamp := startTime, duration := duration, retries := out.retries }, w3)
  | none =>
      let w3 := { w2 with
        requestMetrics := logMetric "DELETE" table (now + elapsed) duration "success" none w2.requestMetrics }
      let w4 := { w3 with requestCache := clearTableCache table w3.requestCache }
      Except.ok
        ({ data := none, error := none, status := "success",
           timestamp := startTime, duration := duration, retries := out.retries }, w4)

/-- `middlewareDelete(table, filters, options)`; `filters` only shapes
the abstracted supabase delete and is omitted. -/
def middlewareDelete (table : String) (options : MiddlewareOptions)
    (net : Nat → Int → Except String Unit) (now elapsed : Int) (w : MWState) :
    MiddlewareResponse Unit × MWState :=
  let startTime := now
  let mergedOptions := mergeOptions DEFAULT_OPTIONS options
  let rl := checkRateLimit now (table ++ ":delete") w.rateLimitMap
  let w1 := { w with rateLimitMap := rl.2 }
  if rl.1 then
    match middlewareDeleteBody table mergedOptions net startTime now elapsed w1 with
    | Except.ok r => r
    | Except.error e =>
        let duration := (now + elapsed) - startTime
        let w2 := { w1 with
          requestMetrics := logMetric "DELETE" table (now + elapsed) duration "timeout" (some e) w1.requestMetrics }
        ({ data := none, error := some e, status := "timeout",
           timestamp := startTime, duration := duration, retries := 0 }, w2)
  else
    let w2 := { w1 with
      requestMetrics := logMetric "DELETE" table now 0 "rate_limited" (some "Rate limit exceeded") w1.requestMetrics }
    ({ data := none, error := some "Rate limit exceeded", status := "error",
       timestamp := startTime, duration := 0, retries := 0 }, w2)

/-- Try-block of `middlewareAuthSignIn`: retry the sign-in; the error
envelope's status is plain `"error"` (no retry-exhausted
classification in the auth operations). -/
def middlewareAuthSignInBody (mergedOptions : MiddlewareOptions)
    (net : Nat → Except String JVal)
    (startTime now elapsed : Int) (w : MWState) :
    Except String (MiddlewareResponse JVal × MWState) :=
  let res := withRetry (fun s => (net s.netCalls, { s with netCalls := s.netCalls + 1 }))
      mergedOptions.maxRetries w
  let out := res.1
  let w2 := res.2.1
  let duration := (now + elapsed) - startTime
  match out.error with
  | some e =>
      let w3 := { w2 with
        requestMetrics := logMetric "AUTH:SIGNIN" "auth" (now + elapsed) duration "error" (some e) w2.requestMetrics }
      Except.ok
        ({ data := none, error := some e, status := "error",
           timestamp := startTime, duration := duration, retries := out.retries }, w3)
  | none =>
      let w3 := { w2 with
        requestMetrics := logMetric "AUTH:SIGNIN" "auth" (now + elapsed) duration "success" none w2.requestMetrics }
      Except.ok
        ({ data := out.data, error := none, status := "success",
           timestamp := startTime, duration := duration, retries := out.retries }, w3)

/-- `middlewareAuthSignIn(email, password, options)`: no rate limiting,
no caching; credentials only shape the abstracted backend call. -/
def middlewareAuthSignIn (options : MiddlewareOptions)
    (net : Nat → Except String JVal) (now elapsed : Int) (w : MWState) :
    MiddlewareResponse JVal × MWState :=
  let startTime := now
  let mergedOptions := mergeOptions DEFAULT_OPTIONS options
  match middlewareAuthSignInBody mergedOptions net startTime now elapsed w with
  | Except.ok r => r
  | Except.error e =>
      let duration := (now + elapsed) - startTime
      let w2 := { w with
        requestMetrics := logMetric "AUTH:SIGNIN" "auth" (now + elapsed) duration "timeout" (some e) w.requestMetrics }
      ({ data := none, error := some e, status := "timeout",
         timestamp := startTime, duration := duration, retries := 0 }, w2)

/-- Try-block of `middlewareAuthSignUp`, structured like
`middlewareAuthSignInBody`. -/
def middlewareAuthSignUpBody (mergedOptions : MiddlewareOptions)
    (net : Nat → Except String JVal)
    (startTime now elapsed : Int) (w : MWState) :
    Except String (MiddlewareResponse JVal × MWState) :=
  let res := withRetry (fun s => (net s.netCalls, { s with netCalls := s.netCalls + 1 }))
      mergedOptions.maxRetries w
  let out := res.1
  let w2 := res.2.1
  let duration := (now + elapsed) - startTime
  match out.error with
  | some e =>
      let w3 := { w2 with
        requestMetrics := logMetric "AUTH:SIGNUP" "auth" (now + elapsed) duration "error" (some e) w2.requestMetrics }
      Except.ok
        ({ data := none, error := some e, status := "error",
           timestamp := startTime, duration := duration, retries := out.retries }, w3)
  | none =>
      let w3 := { w2 with
        requestMetrics := logMetric "AUTH:SIGNUP" "auth" (now + elapsed) duration "success" none w2.requestMetrics }
      Except.ok
        ({ data := out.data, error := none, status := "success",
           timestamp := startTime, duration := duration, retries := out.retries }, w3)

/-- `middlewareAuthSignUp(email, password, options)`. -/
def middlewareAuthSignUp (options : MiddlewareOptions)
    (net : Nat → Except String JVal) (now elapsed : Int) (w : MWState) :
    MiddlewareResponse JVal × MWState :=
  let startTime := now
  let mergedOptions := mergeOptions DEFAULT_OPTIONS options
  match middlewareAuthSignUpBody mergedOptions net startTime now elapsed w with
  | Except.ok r => r
  | Except.error e =>
      let duration := (now + elapsed) - startTime
      let w2 := { w with
        requestMetrics := logMetric "AUTH:SIGNUP" "auth" (now + elapsed) duration "timeout" (some e) w.requestMetrics }
      ({ data := none, error := some e, status := "timeout",
         timestamp := startTime, duration := duration, retries := 0 }, w2)

/-- Try-block of `middlewareAuthSignOut`: retry the remote sign-out; on
failure return the `"error"` envelope — `requestCache.clear()` is NOT
reached; on success log, clear the ENTIRE cache, and return the success
envelope. -/
def middlewareAuthSignOutBody (mergedOptions : MiddlewareOptions)
    (net : Nat → Except String Unit)
    (startTime now elapsed : Int) (w : MWState) :
    Except String (MiddlewareResponse Unit × MWState) :=
  let res := withRetry (executeSignOut net) mergedOptions.maxRetries w
  let out := res.1
  let w2 := res.2.1
  let duration := (now + elapsed) - startTime
  match out.error with
  | some e =>
      let w3 := { w2 with
        requestMetrics := logMetric "AUTH:SIGNOUT" "auth" (now + elapsed) duration "error" (some e) w2.requestMetrics }
      Except.ok
        ({ data := none, error := some e, status := "error",
           timestamp := startTime, duration := duration, retries := out.retries }, w3)
  | none =>
      let w3 := { w2 with
        requestMetrics := logMetric "AUTH:SIGNOUT" "auth" (now + elapsed) duration "success" none w2.requestMetrics }
      let w4 := { w3 with requestCache := [] }
      Except.ok
        ({ data := none, error := none, status := "success",
           timestamp := startTime, duration := duration, retries := out.retries }, w4)

/-- `middlewareAuthSignOut(token, options)`: no rate limiting; the
bearer token only shapes the abstracted backend call. -/
def middlewareAuthSignOut (options : MiddlewareOptions)
    (net : Nat → Except String Unit) (now elapsed : Int) (w : MWState) :
    MiddlewareResponse Unit × MWState :=
  let startTime := now
  let mergedOptions := mergeOptions DEFAULT_OPTIONS options
  match middlewareAuthSignOutBody mergedOptions net startTime now elapsed w with
  | Except.ok r => r
  | Except.error e =>
      let duration := (now + elapsed) - startTime
      let w2 := { w with
        requestMetrics := logMetric "AUTH:SIGNOUT" "auth" (now + elapsed) duration "timeout" (some e) w.requestMetrics }
      ({ data := none, error := some e, status := "timeout",
         timestamp := startTime, duration := duration, retries := 0 }, w2)

/-- State with the ghost network-invocation counter advanced by `i`
(the state after `i` attempts that only touched the network). -/
def bumpN (w : MWState) (i : Nat) : MWState :=
  { w with netCalls := w.netCalls + i }

theorem bumpN_zero (w : MWState) : bumpN w 0 = w := rfl

theorem bumpN_bumpN (w : MWState) (i j : Nat) :
    bumpN (bumpN w i) j = bumpN w (i + j) := by
  simp [bumpN, Nat.add_assoc]

/-- Unfolding lemma: a successful attempt returns immediately with
`retries = attempt`. -/
theorem withRetryGo_ok {α : Type} (fn : MWState → Except String α × MWState)
    (maxRetries attempt remaining delayAcc : Nat) (w w2 : MWState) (d : α)
    (h : fn w = (Except.ok d, w2)) :
    withRetryGo fn maxRetries attempt remaining delayAcc w =
      (⟨some d, none, attempt⟩, w2, delayAcc) := by
  rw [withRetryGo.eq_def, h]

/-- Unfolding lemma: a failed attempt with no remaining iterations ends
the loop with `retries = maxRetries` and the last error. -/
theorem withRetryGo_err_last {α : Type} (fn : MWState → Except String α × MWState)
    (maxRetries attempt delayAcc : Nat) (w w2 : MWState) (e : String)
    (h : fn w = (Except.error e, w2)) :
    withRetryGo fn maxRetries attempt 0 delayAcc w =
      (⟨none, some e, maxRetries⟩, w2, delayAcc) := by
  rw [withRetryGo.eq_def, h]

/-- Unfolding lemma: a failed attempt with iterations remaining sleeps
`2^attempt * 1000` and retries. -/
theorem withRetryGo_err_step {α : Type} (fn : MWState → Except String α × MWState)
    (maxRetries attempt r delayAcc : Nat) (w w2 : MWState) (e : String)
    (h : fn w = (Except.error e, w2)) :
    withRetryGo fn maxRetries attempt (r + 1) delayAcc w =
      withRetryGo fn maxRetries (attempt + 1) r (delayAcc + 2 ^ attempt * 1000) w2 := by
  rw [withRetryGo.eq_def, h]

/-- Running the retry loop over an attempt function that fails on every
invocation, only bumping the network counter: all `remaining + 1`
attempts are issued, the LAST error is reported with
`retries = maxRetries`, and the accumulated backoff is
`2^attempt + ... + 2^(attempt+remaining-1)` seconds
(`= (2^(attempt+remaining) - 2^attempt) * 1000` ms). -/
theorem withRetryGo_allFail {α : Type} (fn : MWState → Except String α × MWState) :
    ∀ (remaining : Nat) (es : Nat → String) (attempt maxRetries delayAcc : Nat)
      (w : MWState),
    (∀ i, i ≤ remaining → fn (bumpN w i) = (Except.error (es i), bumpN w (i + 1))) →
    withRetryGo fn maxRetries attempt remaining delayAcc w =
      (⟨none, some (es remaining), maxRetries⟩, bumpN w (remaining + 1),
       delayAcc + (2 ^ (attempt + remaining) - 2 ^ attempt) * 1000) := by
  intro remaining
  induction remaining with
  | zero =>
      intro es attempt maxRetries delayAcc w herr
      have h0 := herr 0 (Nat.le_refl 0)
      rw [bumpN_zero] at h0
      rw [withRetryGo_err_last fn maxRetries attempt delayAcc w _ _ h0]
      simp
  | succ r ih =>
      intro es attempt maxRetries delayAcc w herr
      have h0 := herr 0 (Nat.zero_le _)
      rw [bumpN_zero] at h0
      rw [withRetryGo_err_step fn maxRetries attempt r delayAcc w _ _ h0]
      have herr2 : ∀ i, i ≤ r →
          fn (bumpN (bumpN w 1) i) =
            (Except.error (es (i + 1)), bumpN (bumpN w 1) (i + 1)) := by
        intro i hi
        rw [bumpN_bumpN, bumpN_bumpN]
        have := herr (i + 1) (by omega)
        have h1 : 1 + i = i + 1 := by omega
        have h2 : 1 + (i + 1) = i + 1 + 1 := by omega
        rw [h1, h2]
        exact this
      rw [ih (fun i => es (i + 1)) (attempt + 1) maxRetries
        (delayAcc + 2 ^ attempt * 1000) (bumpN w 1) herr2]
      rw [bumpN_bumpN]
      have hidx : 1 + (r + 1) = r + 1 + 1 := by omega
      rw [hidx]
      have hexp : attempt + 1 + r = attempt + (r + 1) := by omega
      rw [hexp]
      have hsucc : 2 ^ (attempt + 1) = 2 ^ attempt * 2 := pow_succ 2 attempt
      have hle : 2 ^ (attempt + 1) ≤ 2 ^ (attempt + (r + 1)) :=
        Nat.pow_le_pow_right (by omega) (by omega)
      have harith : delayAcc + 2 ^ attempt * 1000 +
          (2 ^ (attempt + (r + 1)) - 2 ^ (attempt + 1)) * 1000 =
          delayAcc + (2 ^ (attempt + (r + 1)) - 2 ^ attempt) * 1000 := by
        omega
      rw [harith]

/-- Running the retry loop over an attempt function that fails on its
first `k` invocations (only bumping the network counter) and succeeds
on invocation `k`, with `k` within the attempt budget: the success is
returned immediately with `retries = attempt + k` and accumulated
backoff `(2^(attempt+k) - 2^attempt) * 1000` ms. -/
theorem withRetryGo_failThenOk {α : Type} (fn : MWState → Except String α × MWState)
    (v : α) :
    ∀ (k : Nat) (es : Nat → String) (attempt remaining maxRetries delayAcc : Nat)
      (w wfin : MWState),
    k ≤ remaining →
    (∀ i, i < k → fn (bumpN w i) = (Except.error (es i), bumpN w (i + 1))) →
    fn (bumpN w k) = (Except.ok v, wfin) →
    withRetryGo fn maxRetries attempt remaining delayAcc w =
      (⟨some v, none, attempt + k⟩, wfin,
       delayAcc + (2 ^ (attempt + k) - 2 ^ attempt) * 1000) := by
  intro k
  induction k with
  | zero =>
      intro es attempt remaining maxRetries delayAcc w wfin _ _ hok
      rw [bumpN_zero] at hok
      rw [withRetryGo_ok fn maxRetries attempt remaining delayAcc w wfin v hok]
      simp
  | succ k ih =>
      intro es attempt remaining maxRetries delayAcc w wfin hk herr hok
      obtain ⟨r, rfl⟩ : ∃ r, remaining = r + 1 := ⟨remaining - 1, by omega⟩
      have h0 := herr 0 (by omega)
      rw [bumpN_zero] at h0
      rw [withRetryGo_err_step fn maxRetries attempt r delayAcc w _ _ h0]
      have herr2 : ∀ i, i < k →
          fn (bumpN (bumpN w 1) i) = (Except.error (es (i + 1)), bumpN (bumpN w 1) (i + 1)) := by
        intro i hi
        rw [bumpN_bumpN, bumpN_bumpN]
        have := herr (i + 1) (by omega)
        have h1 : 1 + i = i + 1 := by omega
        have h2 : 1 + (i + 1) = i + 1 + 1 := by omega
        rw [h1, h2]
        exact this
      have hok2 : fn (bumpN (bumpN w 1) k) = (Except.ok v, wfin) := by
        rw [bumpN_bumpN]
        have h1 : 1 + k = k + 1 := by omega
        rw [h1]
        exact hok
      rw [ih (fun i => es (i + 1)) (attempt + 1) r maxRetries
        (delayAcc + 2 ^ attempt * 1000) (bumpN w 1) wfin (by omega) herr2 hok2]
      have hexp : attempt + 1 + k = attempt + (k + 1) := by omega
      rw [hexp]
      have hsucc : 2 ^ (attempt + 1) = 2 ^ attempt * 2 := pow_succ 2 attempt
      have hle : 2 ^ (attempt + 1) ≤ 2 ^ (attempt + (k + 1)) :=
        Nat.pow_le_pow_right (by omega) (by omega)
      have harith : delayAcc + 2 ^ attempt * 1000 +
          (2 ^ (attempt + (k + 1)) - 2 ^ (attempt + 1)) * 1000 =
          delayAcc + (2 ^ (attempt + (k + 1)) - 2 ^ attempt) * 1000 := by
        omega
      rw [harith]

/-- The retry loop never changes `requestCache` when each single
attempt leaves it unchanged. -/
theorem withRetryGo_requestCache {α : Type} (fn : MWState → Except String α × MWState)
    (hfn : ∀ s, ((fn s).2).requestCache = s.requestCache) :
    ∀ (remaining attempt maxRetries delayAcc : Nat) (w : MWState),
    ((withRetryGo fn maxRetries attempt remaining delayAcc w).2.1).requestCache =
      w.requestCache := by
  intro remaining
  induction remaining with
  | zero =>
      intro attempt maxRetries delayAcc w
      rcases h : fn w with ⟨res, w2⟩
      have hc : w2.requestCache = w.requestCache := by
        have := hfn w
        rw [h] at this
        exact this
      cases res <;> simp [withRetryGo, h, hc]
  | succ r ih =>
      intro attempt maxRetries delayAcc w
      rcases h : fn w with ⟨res, w2⟩
      have hc : w2.requestCache = w.requestCache := by
        have := hfn w
        rw [h] at this
        exact this
      cases res with
      | ok d => simp [withRetryGo, h, hc]
      | error e =>
          rw [withRetryGo_err_step fn maxRetries attempt r delayAcc w w2 e h]
          rw [ih, hc]

/-- Lookup at a cons whose head carries the key. -/
theorem mapGet_cons_pos {α : Type} (p : String × α) (m : List (String × α))
    (k : String) (h : (p.1 == k) = true) :
    mapGet (p :: m) k = some p.2 := by
  unfold mapGet
  rw [List.find?_cons_of_pos m (show (fun q : String × α => q.1 == k) p = true from h)]
  rfl

/-- Lookup at a cons whose head carries another key. -/
theorem mapGet_cons_neg {α : Type} (p : String × α) (m : List (String × α))
    (k : String) (h : (p.1 == k) = false) :
    mapGet (p :: m) k = mapGet m k := by
  unfold mapGet
  rw [List.find?_cons_of_neg m
    (show ¬ (fun q : String × α => q.1 == k) p = true by simp [h])]

/-- Replacing the binding of a present key in place makes that key read
back the new value. -/
theorem mapGet_map_replace {α : Type} (k : String) (v : α) :
    ∀ m : List (String × α), m.any (fun p => p.1 == k) = true →
    mapGet (m.map (fun p => if p.1 == k then (k, v) else p)) k = some v := by
  intro m
  induction m with
  | nil => intro h; simp at h
  | cons p rest ih =>
      intro h
      rw [List.map_cons]
      by_cases hp : (p.1 == k) = true
      · have hif : (if (p.1 == k) = true then (k, v) else p) = (k, v) := by
          rw [if_pos hp]
        rw [hif, mapGet_cons_pos _ _ _ (by simp)]
      · have hp2 : (p.1 == k) = false := by
          simp only [Bool.not_eq_true] at hp
          exact hp
        have hif : (if (p.1 == k) = true then (k, v) else p) = p := by
          rw [if_neg]
          simp [hp2]
        have hrest : rest.any (fun p => p.1 == k) = true := by
          simp only [List.any_cons, hp2, Bool.false_or] at h
          exact h
        rw [hif, mapGet_cons_neg _ _ _ hp2]
        exact ih hrest

/-- Appending a fresh binding makes that key read back the appended
value. -/
theorem mapGet_append_new {α : Type} (k : String) (v : α) :
    ∀ m : List (String × α), m.any (fun p => p.1 == k) = false →
    mapGet (m ++ [(k, v)]) k = some v := by
  intro m
  induction m with
  | nil =>
      intro _
      rw [List.nil_append, mapGet_cons_pos _ _ _ (by simp)]
  | cons p rest ih =>
      intro h
      simp only [List.any_cons, Bool.or_eq_false_iff] at h
      rw [List.cons_append, mapGet_cons_neg _ _ _ h.1]
      exact ih h.2

/-- Writing a key into the JS `Map` model makes that key read back the
written value. -/
theorem mapGet_mapSet {α : Type} (m : List (String × α)) (k : String) (v : α) :
    mapGet (mapSet m k v) k = some v := by
  unfold mapSet
  by_cases hany : m.any (fun p => p.1 == k) = true
  · rw [if_pos hany]
    exact mapGet_map_replace k v m hany
  · have hany2 : m.any (fun p => p.1 == k) = false := by
      simp only [Bool.not_eq_true] at hany
      exact hany
    rw [if_neg (by simp [hany2])]
    exact mapGet_append_new k v m hany2

/-- After the mutation invalidation loop, no key with the table's
resource-kind pair is left in the cache. -/
theorem mapGet_clearTableCache (table key : String)
    (c : List (String × CacheEntry))
    (h : jsStartsWith key (table ++ ":") = true) :
    mapGet (clearTableCache table c) key = none := by
  induction c with
  | nil => simp [clearTableCache, mapGet]
  | cons p rest ih =>
      by_cases hp : p.1 = key
      · have hdrop : jsStartsWith p.1 (table ++ ":") = true := by rw [hp]; exact h
        simp [clearTableCache, hdrop] at ih ⊢
        exact ih
      · by_cases hkeep : jsStartsWith p.1 (table ++ ":") = true
        · simp [clearTableCache, hkeep] at ih ⊢
          exact ih
        · have hkeep2 : (!(jsStartsWith p.1 (table ++ ":"))) = true := by
            simp [Bool.not_eq_true] at hkeep ⊢
            exact hkeep
          simp only [clearTableCache, List.filter_cons, hkeep2, if_pos]
          simp only [mapGet, List.find?, show (p.1 == key) = false by simp [hp]]
          simpa [clearTableCache, mapGet] using ih

/-- Total backoff of `k` failed attempts starting at attempt 0
(`1000 + 2000 + ... + 2^(k-1)*1000`) in closed form. -/
theorem backoffSum_eq (k : Nat) :
    (∑ i ∈ Finset.range k, 2 ^ i * 1000) = (2 ^ k - 1) * 1000 := by
  induction k with
  | zero => simp
  | succ k ih =>
      rw [Finset.sum_range_succ, ih]
      have hsucc : 2 ^ (k + 1) = 2 ^ k * 2 := pow_succ 2 k
      have hpos : 1 ≤ 2 ^ k := Nat.one_le_two_pow
      omega

/-- The try-block of `middlewareSelect` always returns normally, with a
status other than `"timeout"`. -/
theorem middlewareSelectBody_isOk (table : String) (filters : Option JVal)
    (mergedOptions : MiddlewareOptions) (net : Nat → Int → Except String JVal)
    (startTime now elapsed : Int) (w1 : MWState) :
    ∃ r, middlewareSelectBody table filters mergedOptions net startTime now elapsed w1 =
      Except.ok r ∧ (r.1).status ≠ "timeout" := by
  simp only [middlewareSelectBody]
  split
  · refine ⟨_, rfl, ?_⟩
    repeat' split
    all_goals simp
  · exact ⟨_, rfl, by simp⟩

/-- The try-block of `middlewareInsert` always returns normally, with a
status other than `"timeout"`. -/
theorem middlewareInsertBody_isOk (table : String)
    (mergedOptions : MiddlewareOptions) (net : Nat → Int → Except String JVal)
    (startTime now elapsed : Int) (w1 : MWState) :
    ∃ r, middlewareInsertBody table mergedOptions net startTime now elapsed w1 =
      Except.ok r ∧ (r.1).status ≠ "timeout" := by
  simp only [middlewareInsertBody]
  split
  · refine ⟨_, rfl, ?_⟩
    repeat' split
    all_goals simp
  · exact ⟨_, rfl, by simp⟩

/-- The try-block of `middlewareUpdate` always returns normally, with a
status other than `"timeout"`. -/
theorem middlewareUpdateBody_isOk (table : String)
    (mergedOptions : MiddlewareOptions) (net : Nat → Int → Except String JVal)
    (startTime now elapsed : Int) (w1 : MWState) :
    ∃ r, middlewareUpdateBody table mergedOptions net startTime now elapsed w1 =
      Except.ok r ∧ (r.1).status ≠ "timeout" := by
  simp only [middlewareUpdateBody]
  split
  · refine ⟨_, rfl, ?_⟩
    repeat' split
    all_goals simp
  · exact ⟨_, rfl, by simp⟩

/-- The try-block of `middlewareDelete` always returns normally, with a
status other than `"timeout"`. -/
theorem middlewareDeleteBody_isOk (table : String)
    (mergedOptions : MiddlewareOptions) (net : Nat → Int → Except String Unit)
    (startTime now elapsed : Int) (w1 : MWState) :
    ∃ r, middlewareDeleteBody table mergedOptions net startTime now elapsed w1 =
      Except.ok r ∧ (r.1).status ≠ "timeout" := by
  simp only [middlewareDeleteBody]
  split
  · refine ⟨_, rfl, ?_⟩
    repeat' split
    all_goals simp
  · exact ⟨_, rfl, by simp⟩

/-- The try-block of `middlewareAuthSignIn` always returns normally,
with a status other than `"timeout"`. -/
theorem middlewareAuthSignInBody_isOk (mergedOptions : MiddlewareOptions)
    (net : Nat → Except String JVal) (startTime now elapsed : Int) (w : MWState) :
    ∃ r, middlewareAuthSignInBody mergedOptions net startTime now elapsed w =
      Except.ok r ∧ (r.1).status ≠ "timeout" := by
  simp only [middlewareAuthSignInBody]
  split
  · exact ⟨_, rfl, by simp⟩
  · exact ⟨_, rfl, by simp⟩

/-- The try-block of `middlewareAuthSignUp` always returns normally,
with a status other than `"timeout"`. -/
theorem middlewareAuthSignUpBody_isOk (mergedOptions : MiddlewareOptions)
    (net : Nat → Except String JVal) (startTime now elapsed : Int) (w : MWState) :
    ∃ r, middlewareAuthSignUpBody mergedOptions net startTime now elapsed w =
      Except.ok r ∧ (r.1).status ≠ "timeout" := by
  simp only [middlewareAuthSignUpBody]
  split
  · exact ⟨_, rfl, by simp⟩
  · exact ⟨_, rfl, by simp⟩

/-- The try-block of `middlewareAuthSignOut` always returns normally,
with a status other than `"timeout"`. -/
theorem middlewareAuthSignOutBody_isOk (mergedOptions : MiddlewareOptions)
    (net : Nat → Except String Unit) (startTime now elapsed : Int) (w : MWState) :
    ∃ r, middlewareAuthSignOutBody mergedOptions net startTime now elapsed w =
      Except.ok r ∧ (r.1).status ≠ "timeout" := by
  simp only [middlewareAuthSignOutBody]
  split
  · exact ⟨_, rfl, by simp⟩
  · exact ⟨_, rfl, by simp⟩

/-- C9: no gateway operation ever returns an envelope with status
`"timeout"`: `withRetry` converts every attempt failure (including
timeout rejections produced by `withTimeout`, which reach it as
ordinary errors) into a returned value instead of throwing, so each
gateway operation's try-block always returns normally (witnessed for
`middlewareSelectBody` by the second conjunct) and the catch branch
that would produce `"timeout"` is unreachable; per-attempt timeouts
surface only as `"error"` or `"retry_exhausted"`. -/
theorem c9_no_timeout_status :
    (∀ table filters options net now elapsed w,
      ((middlewareSelect table filters options net now elapsed w).1).status ≠ "timeout") ∧
    (∀ table filters mergedOptions net startTime now elapsed w1,
      ∃ r, middlewareSelectBody table filters mergedOptions net startTime now elapsed w1 =
        Except.ok r) ∧
    (∀ table options net now elapsed w,
      ((middlewareInsert table options net now elapsed w).1).status ≠ "timeout") ∧
    (∀ table options net now elapsed w,
      ((middlewareUpdate table options net now elapsed w).1).status ≠ "timeout") ∧
    (∀ table options net now elapsed w,
      ((middlewareDelete table options net now elapsed w).1).status ≠ "timeout") ∧
    (∀ options net now elapsed w,
      ((middlewareAuthSignIn options net now elapsed w).1).status ≠ "timeout") ∧
    (∀ options net now elapsed w,
      ((middlewareAuthSignUp options net now elapsed w).1).status ≠ "timeout") ∧
    (∀ options net now elapsed w,
      ((middlewareAuthSignOut options net now elapsed w).1).status ≠ "timeout") := by
  refine ⟨?_, ?_, ?_, ?_, ?_, ?_, ?_, ?_⟩
  · intro table filters options net now elapsed w
    simp only [middlewareSelect]
    obtain ⟨r, hr, hs⟩ := middlewareSelectBody_isOk table filters
      (mergeOptions DEFAULT_OPTIONS options) net now now elapsed
      { w with rateLimitMap := (checkRateLimit now (table ++ ":select") w.rateLimitMap).2 }
    split
    · rw [hr]
      exact hs
    · simp
  · intro table filters mergedOptions net startTime now elapsed w1
    obtain ⟨r, hr, _⟩ := middlewareSelectBody_isOk table filters
      mergedOptions net startTime now elapsed w1
    exact ⟨r, hr⟩
  · intro table options net now elapsed w
    simp only [middlewareInsert]
    obtain ⟨r, hr, hs⟩ := middlewareInsertBody_isOk table
      (mergeOptions DEFAULT_OPTIONS options) net now now elapsed
      { w with rateLimitMap := (checkRateLimit now (table ++ ":insert") w.rateLimitMap).2 }
    split
    · rw [hr]
      exact hs
    · simp
  · intro table options net now elapsed w
    simp only [middlewareUpdate]
    obtain ⟨r, hr, hs⟩ := middlewareUpdateBody_isOk table
      (mergeOptions DEFAULT_OPTIONS options) net now now elapsed
      { w with rateLimitMap := (checkRateLimit now (table ++ ":update") w.rateLimitMap).2 }
    split
    · rw [hr]
      exact hs
    · simp
  · intro table options net now elapsed w
    simp only [middlewareDelete]
    obtain ⟨r, hr, hs⟩ := middlewareDeleteBody_isOk table
      (mergeOptions DEFAULT_OPTIONS options) net now now elapsed
      { w with rateLimitMap := (checkRateLimit now (table ++ ":delete") w.rateLimitMap).2 }
    split
    · rw [hr]
      exact hs
    · simp
  · intro options net now elapsed w
    simp only [middlewareAuthSignIn]
    obtain ⟨r, hr, hs⟩ := middlewareAuthSignInBody_isOk
      (mergeOptions DEFAULT_OPTIONS options) net now now elapsed w
    rw [hr]
    exact hs
  · intro options net now elapsed w
    simp only [middlewareAuthSignUp]
    obtain ⟨r, hr, hs⟩ := middlewareAuthSignUpBody_isOk
      (mergeOptions DEFAULT_OPTIONS options) net now now elapsed w
    rw [hr]
    exact hs
  · intro options net now elapsed w
    simp only [middlewareAuthSignOut]
    obtain ⟨r, hr, hs⟩ := middlewareAuthSignOutBody_isOk
      (mergeOptions DEFAULT_OPTIONS options) net now now elapsed w
    rw [hr]
    exact hs

/-- C10: the `enableRetry` option is merged but never read: every
gateway operation returns the identical envelope and identical final
state (cache, rate windows, metrics, network-attempt count) whatever
value `enableRetry` is set to — retries happen unconditionally. -/
theorem c10_enableRetry_no_effect (b1 b2 : Option Bool) :
    (∀ table filters (options : MiddlewareOptions) net now elapsed w,
      middlewareSelect table filters { options with enableRetry := b1 } net now elapsed w =
        middlewareSelect table filters { options with enableRetry := b2 } net now elapsed w) ∧
    (∀ table (options : MiddlewareOptions) net now elapsed w,
      middlewareInsert table { options with enableRetry := b1 } net now elapsed w =
        middlewareInsert table { options with enableRetry := b2 } net now elapsed w) ∧
    (∀ table (options : MiddlewareOptions) net now elapsed w,
      middlewareUpdate table { options with enableRetry := b1 } net now elapsed w =
        middlewareUpdate table { options with enableRetry := b2 } net now elapsed w) ∧
    (∀ table (options : MiddlewareOptions) net now elapsed w,
      middlewareDelete table { options with enableRetry := b1 } net now elapsed w =
        middlewareDelete table { options with enableRetry := b2 } net now elapsed w) ∧
    (∀ (options : MiddlewareOptions) net now elapsed w,
      middlewareAuthSignIn { options with enableRetry := b1 } net now elapsed w =
        middlewareAuthSignIn { options with enableRetry := b2 } net now elapsed w) ∧
    (∀ (options : MiddlewareOptions) net now elapsed w,
      middlewareAuthSignUp { options with enableRetry := b1 } net now elapsed w =
        middlewareAuthSignUp { options with enableRetry := b2 } net now elapsed w) ∧
    (∀ (options : MiddlewareOptions) net now elapsed w,
      middlewareAuthSignOut { options with enableRetry := b1 } net now elapsed w =
        middlewareAuthSignOut { options with enableRetry := b2 } net now elapsed w) := by
  refine ⟨?_, ?_, ?_, ?_, ?_, ?_, ?_⟩ <;> intros <;> rfl

/-- Decidable equality for abstracted attempt results, used to evaluate
witnesses. -/
instance {e a : Type} [DecidableEq e] [DecidableEq a] : DecidableEq (Except e a) :=
  fun x y =>
    match x, y with
    | .ok u, .ok v =>
        if h : u = v then isTrue (by rw [h]) else isFalse (by simp [h])
    | .error u, .error v =>
        if h : u = v then isTrue (by rw [h]) else isFalse (by simp [h])
    | .ok _, .error _ => isFalse (by simp)
    | .error _, .ok _ => isFalse (by simp)

/-- Initial module state: the shared maps start empty at process
start. -/
def emptyState : MWState :=
  { requestCache := [], rateLimitMap := [], requestMetrics := [], netCalls := 0 }

/-- C4 counterexample: the same two filter pairs inserted in different
orders produce two DIFFERENT cache keys — `JSON.stringify` preserves
insertion order and `generateCacheKey` does not canonicalize. -/
theorem c4_counterexample :
    generateCacheKey "t" "select"
        (some (.jobj (.cons "a" (.jnum 1) (.cons "b" (.jnum 2) .nil)))) ≠
      generateCacheKey "t" "select"
        (some (.jobj (.cons "b" (.jnum 2) (.cons "a" (.jnum 1) .nil)))) := by
  decide

/-- C4 (amended): the cache-key fingerprint is determined by the
insertion-ordered serialization of the filter map — two filter values
with equal `JSON.stringify` output (for the same table and operation)
produce the same cache key; insertion order is part of that
serialization, so differently-ordered maps may produce different
keys. -/
theorem c4_fingerprint_follows_serialization (table operation : String)
    (p q : Option JVal)
    (h : jsonStringify (p.getD (.jobj .nil)) = jsonStringify (q.getD (.jobj .nil))) :
    generateCacheKey table operation p = generateCacheKey table operation q := by
  unfold generateCacheKey
  rw [h]

/-- C4 witness: an absent filter record and an explicitly empty one
serialize alike, hence share a cache key. -/
theorem c4_fingerprint_follows_serialization_witness :
    jsonStringify ((none : Option JVal).getD (.jobj .nil)) =
      jsonStringify ((some (JVal.jobj .nil)).getD (.jobj .nil)) ∧
    generateCacheKey "t" "select" none = generateCacheKey "t" "select" (some (.jobj .nil)) :=
  ⟨rfl, c4_fingerprint_follows_serialization "t" "select" none (some (.jobj .nil)) rfl⟩

/-- C7: an attempt function that fails exactly `k` times and then
succeeds, with `k < maxRetries`, makes `withRetry` return the success
immediately with `retries = k` after exactly `k + 1` attempt
invocations, having slept `2^i * 1000` ms before retry `i + 1`
(`i = 0, ..., k-1`), a cumulative backoff of
`∑ i < k, 2^i * 1000` ms. -/
theorem c7_retry_success_after_k_failures (net : Nat → Int → Except String JVal)
    (tmo : Int) (es : Nat → String) (v : JVal) (k maxRetries : Nat) (w : MWState)
    (herr : ∀ i, i < k → net (w.netCalls + i) tmo = Except.error (es i))
    (hok : net (w.netCalls + k) tmo = Except.ok v)
    (hk : k < maxRetries) :
    withRetry (executeQuery net tmo) (some maxRetries) w =
      (⟨some v, none, k⟩, bumpN w (k + 1),
       ∑ i ∈ Finset.range k, 2 ^ i * 1000) := by
  have herr2 : ∀ i, i < k →
      executeQuery net tmo (bumpN w i) = (Except.error (es i), bumpN w (i + 1)) := by
    intro i hi
    simp only [executeQuery, bumpN]
    rw [herr i hi]
    rfl
  have hok2 : executeQuery net tmo (bumpN w k) = (Except.ok v, bumpN w (k + 1)) := by
    simp only [executeQuery, bumpN]
    rw [hok]
    rfl
  simp only [withRetry, Option.getD]
  rw [withRetryGo_failThenOk (executeQuery net tmo) v k es 0 maxRetries maxRetries 0 w
    (bumpN w (k + 1)) (Nat.le_of_lt hk) herr2 hok2]
  rw [backoffSum_eq]
  simp

/-- Oracle for the C7 witness: fails twice, then resolves to `7`. -/
def netFailTwice : Nat → Int → Except String JVal :=
  fun n _ => if n < 2 then Except.error "boom" else Except.ok (.jnum 7)

/-- C7 witness: two failures then success under `maxRetries = 3` yields
`retries = 2`, three attempt invocations, and a cumulative backoff of
`1000 + 2000 = 3000` ms. -/
theorem c7_retry_success_after_k_failures_witness :
    (∀ i, i < 2 → netFailTwice (emptyState.netCalls + i) 30000 = Except.error "boom") ∧
    netFailTwice (emptyState.netCalls + 2) 30000 = Except.ok (.jnum 7) ∧
    2 < 3 ∧
    withRetry (executeQuery netFailTwice 30000) (some 3) emptyState =
      (⟨some (.jnum 7), none, 2⟩, bumpN emptyState 3,
       ∑ i ∈ Finset.range 2, 2 ^ i * 1000) ∧
    3000 ≤ ∑ i ∈ Finset.range 2, 2 ^ i * 1000 :=
  ⟨by decide, by decide, by decide,
   c7_retry_success_after_k_failures netFailTwice 30000 (fun _ => "boom") (.jnum 7) 2 3
     emptyState (by decide) (by decide) (by decide),
   by decide⟩

/-- Oracle that fails on every invocation. -/
def netAlwaysFail : Nat → Int → Except String JVal :=
  fun _ _ => Except.error "boom"

/-- C3 counterexample: with `maxRetries = 0` and an always-failing
attempt function, the gateway issues exactly `0 + 1 = 1` attempt and
returns `retries = 0`, but the status is `"error"`, NOT
`"retry_exhausted"` as the claim requires for every `m ≥ 0` — the
JS-falsy guard `mergedOptions.maxRetries || 3` turns the configured `0`
into a threshold of `3`. -/
theorem c3_counterexample :
    ((middlewareSelect "t" none { cache := some false, maxRetries := some 0 }
        netAlwaysFail 0 0 emptyState).1).status = "error" ∧
    ((middlewareSelect "t" none { cache := some false, maxRetries := some 0 }
        netAlwaysFail 0 0 emptyState).1).status ≠ "retry_exhausted" ∧
    ((middlewareSelect "t" none { cache := some false, maxRetries := some 0 }
        netAlwaysFail 0 0 emptyState).1).retries = 0 ∧
    ((middlewareSelect "t" none { cache := some false, maxRetries := some 0 }
        netAlwaysFail 0 0 emptyState).2).netCalls = 1 := by
  decide

/-- C3 (amended): with caching disabled, an admitted call whose attempt
function fails on every invocation issues exactly `m + 1` attempts and
returns an envelope carrying the last failure with `retries = m`; the
status is `"retry_exhausted"` when `m ≥ 1`, but for `m = 0` the JS-falsy
guard `mergedOptions.maxRetries || 3` makes the classification threshold
3, so the envelope status is `"error"` instead. -/
theorem c3_retry_exhaustion (table : String) (filters : Option JVal)
    (options : MiddlewareOptions) (net : Nat → Int → Except String JVal)
    (es : Nat → String) (m : Nat) (now elapsed : Int) (w : MWState)
    (hm : options.maxRetries = some m)
    (hc : options.cache = some false)
    (hadm : (checkRateLimit now (table ++ ":select") w.rateLimitMap).1 = true)
    (hfail : ∀ n t, net n t = Except.error (es n)) :
    ((middlewareSelect table filters options net now elapsed w).1).retries = m ∧
    ((middlewareSelect table filters options net now elapsed w).1).error =
      some (es (w.netCalls + m)) ∧
    ((middlewareSelect table filters options net now elapsed w).1).status =
      (if m = 0 then "error" else "retry_exhausted") ∧
    ((middlewareSelect table filters options net now elapsed w).2).netCalls =
      w.netCalls + (m + 1) := by
  have hgo : ∀ tmo : Int, ∀ w1 : MWState, w1.netCalls = w.netCalls →
      withRetryGo (executeQuery net tmo) m 0 m 0 w1 =
        (⟨none, some (es (w.netCalls + m)), m⟩, bumpN w1 (m + 1),
         0 + (2 ^ (0 + m) - 2 ^ 0) * 1000) := by
    intro tmo w1 hw1
    have herrs : ∀ i, i ≤ m →
        executeQuery net tmo (bumpN w1 i) =
          (Except.error (es (w.netCalls + i)), bumpN w1 (i + 1)) := by
      intro i _
      simp only [executeQuery, bumpN]
      rw [hfail (w1.netCalls + i) tmo, hw1]
      rfl
    exact withRetryGo_allFail (executeQuery net tmo) m
      (fun i => es (w.netCalls + i)) 0 m 0 w1 herrs
  simp only [middlewareSelect, middlewareSelectBody, mergeOptions, DEFAULT_OPTIONS,
    hm, hc, Option.some_orElse, jsTruthy, Option.getD, withRetry, jsOrNat]
  rw [if_pos hadm]
  rw [if_neg (by simp)]
  rw [hgo (jsOrInt (options.timeout <|> some 30000) 30000)
    { w with rateLimitMap := (checkRateLimit now (table ++ ":select") w.rateLimitMap).2 }
    rfl]
  refine ⟨rfl, rfl, ?_, rfl⟩
  by_cases hm0 : m = 0
  · subst hm0
    simp
  · rw [if_neg hm0, if_neg hm0]
    rw [if_pos (Nat.le_refl m)]

/-- C3 witness: `maxRetries = 2`, always-failing attempts, empty
starting state — 3 attempts, `retries = 2`, status
`"retry_exhausted"`. -/
theorem c3_retry_exhaustion_witness :
    (checkRateLimit 0 ("t" ++ ":select") emptyState.rateLimitMap).1 = true ∧
    ((middlewareSelect "t" none { cache := some false, maxRetries := some 2 }
        netAlwaysFail 0 0 emptyState).1).retries = 2 ∧
    ((middlewareSelect "t" none { cache := some false, maxRetries := some 2 }
        netAlwaysFail 0 0 emptyState).1).error = some "boom" ∧
    ((middlewareSelect "t" none { cache := some false, maxRetries := some 2 }
        netAlwaysFail 0 0 emptyState).1).status = "retry_exhausted" ∧
    ((middlewareSelect "t" none { cache := some false, maxRetries := some 2 }
        netAlwaysFail 0 0 emptyState).2).netCalls = 3 := by
  have h := c3_retry_exhaustion "t" none
    { cache := some false, maxRetries := some 2 } netAlwaysFail (fun _ => "boom")
    2 0 0 emptyState rfl rfl (by decide) (fun _ _ => rfl)
  exact ⟨by decide, h.1, h.2.1, h.2.2.1, h.2.2.2⟩

/-- C6: an admission check over a (table, operation) key whose pruned
trailing-window count is at the ceiling makes the gateway return
immediately with status `"error"`, `retries = 0`, `duration = 0` and no
data, leaving the network counter, the cache, and the stored rate
window untouched; below the ceiling, the check records the current
timestamp and admits. -/
theorem c6_rate_limit_admission (table : String) (filters : Option JVal)
    (options : MiddlewareOptions) (net : Nat → Int → Except String JVal)
    (now elapsed : Int) (w : MWState) :
    (RATE_LIMIT_REQUESTS ≤
        (((mapGet w.rateLimitMap (table ++ ":select")).getD []).filter
          (fun ts => now - ts < RATE_LIMIT_WINDOW)).length →
      ((middlewareSelect table filters options net now elapsed w).1).status = "error" ∧
      ((middlewareSelect table filters options net now elapsed w).1).retries = 0 ∧
      ((middlewareSelect table filters options net now elapsed w).1).duration = 0 ∧
      ((middlewareSelect table filters options net now elapsed w).1).data = none ∧
      ((middlewareSelect table filters options net now elapsed w).2).netCalls = w.netCalls ∧
      ((middlewareSelect table filters options net now elapsed w).2).requestCache =
        w.requestCache ∧
      ((middlewareSelect table filters options net now elapsed w).2).rateLimitMap =
        w.rateLimitMap) ∧
    ((((mapGet w.rateLimitMap (table ++ ":select")).getD []).filter
          (fun ts => now - ts < RATE_LIMIT_WINDOW)).length < RATE_LIMIT_REQUESTS →
      checkRateLimit now (table ++ ":select") w.rateLimitMap =
        (true, mapSet w.rateLimitMap (table ++ ":select")
          ((((mapGet w.rateLimitMap (table ++ ":select")).getD []).filter
            (fun ts => now - ts < RATE_LIMIT_WINDOW)) ++ [now]))) := by
  constructor
  · intro h
    have hrl : checkRateLimit now (table ++ ":select") w.rateLimitMap =
        (false, w.rateLimitMap) := by
      unfold checkRateLimit
      rw [if_pos h]
    simp only [middlewareSelect, hrl]
    rw [if_neg (by simp)]
    exact ⟨rfl, rfl, rfl, rfl, rfl, rfl, rfl⟩
  · intro h
    unfold checkRateLimit
    rw [if_neg (Nat.not_le.mpr h)]

/-- State holding 100 in-window admissions for the select key of table
`t`, as after 100 admitted calls at time 0. -/
def rateFullState : MWState :=
  { emptyState with rateLimitMap := [("t:select", List.replicate 100 0)] }

/-- C6 witness: the 101st call against a full window is denied with no
network attempt; a check against an empty window records the timestamp
and admits. -/
theorem c6_rate_limit_admission_witness :
    RATE_LIMIT_REQUESTS ≤
      (((mapGet rateFullState.rateLimitMap ("t" ++ ":select")).getD []).filter
        (fun ts => (0 : Int) - ts < RATE_LIMIT_WINDOW)).length ∧
    ((middlewareSelect "t" none {} netAlwaysFail 0 0 rateFullState).1).status = "error" ∧
    ((middlewareSelect "t" none {} netAlwaysFail 0 0 rateFullState).1).retries = 0 ∧
    ((middlewareSelect "t" none {} netAlwaysFail 0 0 rateFullState).1).duration = 0 ∧
    ((middlewareSelect "t" none {} netAlwaysFail 0 0 rateFullState).2).netCalls =
      rateFullState.netCalls ∧
    (((mapGet emptyState.rateLimitMap ("t" ++ ":select")).getD []).filter
        (fun ts => (0 : Int) - ts < RATE_LIMIT_WINDOW)).length < RATE_LIMIT_REQUESTS ∧
    checkRateLimit 0 ("t" ++ ":select") emptyState.rateLimitMap =
      (true, mapSet emptyState.rateLimitMap ("t" ++ ":select") [(0 : Int)]) := by
  have h := c6_rate_limit_admission "t" none {} netAlwaysFail 0 0 rateFullState
  have hd := h.1 (by decide)
  have h2 := c6_rate_limit_admission "t" none {} netAlwaysFail 0 0 emptyState
  exact ⟨by decide, hd.1, hd.2.1, hd.2.2.1, hd.2.2.2.2.1, by decide, h2.2 (by decide)⟩

/-- C8 counterexample: a full window containing one stale timestamp
(`0`, at check time `70000`, window 60000 ms) denies the call and the
stored rate window is left completely untouched — the stale timestamp
`0` is STILL stored after the check, so at the moment of the next
admission check the stored window does contain a timestamp older than
the window duration, contradicting the claimed invariant that pruning
reaches the store on every check. -/
theorem c8_counterexample :
    (checkRateLimit 70000 "k" [("k", 0 :: List.replicate 100 70000)]).1 = false ∧
    (checkRateLimit 70000 "k" [("k", 0 :: List.replicate 100 70000)]).2 =
      [("k", 0 :: List.replicate 100 70000)] ∧
    (0 : Int) ∈
      (mapGet (checkRateLimit 70000 "k" [("k", 0 :: List.replicate 100 70000)]).2 "k").getD [] ∧
    RATE_LIMIT_WINDOW ≤ (70000 : Int) - 0 := by
  decide

/-- C8 (amended): on every admission check the count is taken over the
pruned timestamps, but the pruned list is written back to the store
only when the check admits: after an admitting check the stored window
for the key contains no timestamp older than the window, while a
denying check leaves the stored map — stale timestamps included —
untouched. -/
theorem c8_rate_window_pruning (now : Int) (key : String)
    (m : List (String × List Int)) :
    ((checkRateLimit now key m).1 = true →
      ∀ ts ∈ (mapGet (checkRateLimit now key m).2 key).getD [],
        now - ts < RATE_LIMIT_WINDOW) ∧
    ((checkRateLimit now key m).1 = false → (checkRateLimit now key m).2 = m) := by
  by_cases h : RATE_LIMIT_REQUESTS ≤
      (((mapGet m key).getD []).filter (fun ts => now - ts < RATE_LIMIT_WINDOW)).length
  · have hrl : checkRateLimit now key m = (false, m) := by
      unfold checkRateLimit
      rw [if_pos h]
    rw [hrl]
    exact ⟨fun habs => absurd habs (by simp), fun _ => rfl⟩
  · have hrl : checkRateLimit now key m =
        (true, mapSet m key
          ((((mapGet m key).getD []).filter (fun ts => now - ts < RATE_LIMIT_WINDOW)) ++ [now])) := by
      unfold checkRateLimit
      rw [if_neg h]
    rw [hrl]
    refine ⟨fun _ => ?_, fun habs => absurd habs (by simp)⟩
    intro ts hts
    rw [mapGet_mapSet] at hts
    simp only [Option.getD_some, List.mem_append, List.mem_filter,
      List.mem_singleton] at hts
    rcases hts with ⟨_, hfresh⟩ | rfl
    · exact of_decide_eq_true hfresh
    · simp only [sub_self, RATE_LIMIT_WINDOW]
      omega

/-- C8 witness: an admitting check against a window holding one fresh
and one stale timestamp stores a fully pruned window, and a denying
check leaves the store untouched. -/
theorem c8_rate_window_pruning_witness :
    ((checkRateLimit 70000 "k" [("k", [0, 20000])]).1 = true ∧
      ∀ ts ∈ (mapGet (checkRateLimit 70000 "k" [("k", [0, 20000])]).2 "k").getD [],
        (70000 : Int) - ts < RATE_LIMIT_WINDOW) ∧
    ((checkRateLimit 70000 "k" [("k", 0 :: List.replicate 100 70000)]).1 = false ∧
      (checkRateLimit 70000 "k" [("k", 0 :: List.replicate 100 70000)]).2 =
        [("k", 0 :: List.replicate 100 70000)]) :=
  ⟨⟨by decide, (c8_rate_window_pruning 70000 "k" [("k", [0, 20000])]).1 (by decide)⟩,
   ⟨by decide, (c8_rate_window_pruning 70000 "k" [("k", 0 :: List.replicate 100 70000)]).2
      (by decide)⟩⟩

/-- The error branch of a mutation classifies as `"retry_exhausted"` or
`"error"`, never `"success"`. -/
theorem ite_retry_status_ne_success (c : Prop) [Decidable c] :
    (if c then "retry_exhausted" else "error") ≠ ("success" : String) := by
  split <;> simp

/-- The retry wrapper never changes `requestCache` when each single
attempt leaves it unchanged. -/
theorem withRetry_requestCache {α : Type} (fn : MWState → Except String α × MWState)
    (hfn : ∀ s, ((fn s).2).requestCache = s.requestCache) (mo : Option Nat)
    (w : MWState) :
    ((withRetry fn mo w).2.1).requestCache = w.requestCache := by
  simp only [withRetry]
  exact withRetryGo_requestCache fn hfn _ _ _ _ w

/-- Case analysis of `middlewareInsert`: a non-success outcome
(rate-limit denial or failed retries) leaves the cache untouched; a
success outcome leaves exactly the invalidated cache. -/
theorem middlewareInsert_cacheCases (table : String) (options : MiddlewareOptions)
    (net : Nat → Int → Except String JVal) (now elapsed : Int) (w : MWState) :
    (((middlewareInsert table options net now elapsed w).1).status ≠ "success" ∧
     ((middlewareInsert table options net now elapsed w).2).requestCache =
       w.requestCache) ∨
    (((middlewareInsert table options net now elapsed w).1).status = "success" ∧
     ((middlewareInsert table options net now elapsed w).2).requestCache =
       clearTableCache table w.requestCache) := by
  have hpres := withRetry_requestCache
    (executeInsert net (jsOrInt (mergeOptions DEFAULT_OPTIONS options).timeout 30000))
    (fun s => rfl) (mergeOptions DEFAULT_OPTIONS options).maxRetries
    { w with rateLimitMap := (checkRateLimit now (table ++ ":insert") w.rateLimitMap).2 }
  simp only [middlewareInsert, middlewareInsertBody]
  split
  · rcases herr : (withRetry (executeInsert net (jsOrInt (mergeOptions DEFAULT_OPTIONS options).timeout 30000))
        (mergeOptions DEFAULT_OPTIONS options).maxRetries
        { w with rateLimitMap := (checkRateLimit now (table ++ ":insert") w.rateLimitMap).2 }).1.error
      with _ | e
    · simp only [herr]
      right
      refine ⟨trivial, ?_⟩
      rw [hpres]
    · simp only [herr]
      left
      refine ⟨ite_retry_status_ne_success _, ?_⟩
      rw [hpres]
  · left
    exact ⟨by simp, rfl⟩

/-- Case analysis of `middlewareUpdate`, as for `middlewareInsert`. -/
theorem middlewareUpdate_cacheCases (table : String) (options : MiddlewareOptions)
    (net : Nat → Int → Except String JVal) (now elapsed : Int) (w : MWState) :
    (((middlewareUpdate table options net now elapsed w).1).status ≠ "success" ∧
     ((middlewareUpdate table options net now elapsed w).2).requestCache =
       w.requestCache) ∨
    (((middlewareUpdate table options net now elapsed w).1).status = "success" ∧
     ((middlewareUpdate table options net now elapsed w).2).requestCache =
       clearTableCache table w.requestCache) := by
  have hpres := withRetry_requestCache
    (executeUpdate net (jsOrInt (mergeOptions DEFAULT_OPTIONS options).timeout 30000))
    (fun s => rfl) (mergeOptions DEFAULT_OPTIONS options).maxRetries
    { w with rateLimitMap := (checkRateLimit now (table ++ ":update") w.rateLimitMap).2 }
  simp only [middlewareUpdate, middlewareUpdateBody]
  split
  · rcases herr : (withRetry (executeUpdate net (jsOrInt (mergeOptions DEFAULT_OPTIONS options).timeout 30000))
        (mergeOptions DEFAULT_OPTIONS options).maxRetries
        { w with rateLimitMap := (checkRateLimit now (table ++ ":update") w.rateLimitMap).2 }).1.error
      with _ | e
    · simp only [herr]
      right
      refine ⟨trivial, ?_⟩
      rw [hpres]
    · simp only [herr]
      left
      refine ⟨ite_retry_status_ne_success _, ?_⟩
      rw [hpres]
  · left
    exact ⟨by simp, rfl⟩

/-- Case analysis of `middlewareDelete`, as for `middlewareInsert`. -/
theorem middlewareDelete_cacheCases (table : String) (options : MiddlewareOptions)
    (net : Nat → Int → Except String Unit) (now elapsed : Int) (w : MWState) :
    (((middlewareDelete table options net now elapsed w).1).status ≠ "success" ∧
     ((middlewareDelete table options net now elapsed w).2).requestCache =
       w.requestCache) ∨
    (((middlewareDelete table options net now elapsed w).1).status = "success" ∧
     ((middlewareDelete table options net now elapsed w).2).requestCache =
       clearTableCache table w.requestCache) := by
  have hpres := withRetry_requestCache
    (executeDelete net (jsOrInt (mergeOptions DEFAULT_OPTIONS options).timeout 30000))
    (fun s => rfl) (mergeOptions DEFAULT_OPTIONS options).maxRetries
    { w with rateLimitMap := (checkRateLimit now (table ++ ":delete") w.rateLimitMap).2 }
  simp only [middlewareDelete, middlewareDeleteBody]
  split
  · rcases herr : (withRetry (executeDelete net (jsOrInt (mergeOptions DEFAULT_OPTIONS options).timeout 30000))
        (mergeOptions DEFAULT_OPTIONS options).maxRetries
        { w with rateLimitMap := (checkRateLimit now (table ++ ":delete") w.rateLimitMap).2 }).1.error
      with _ | e
    · simp only [herr]
      right
      refine ⟨trivial, ?_⟩
      rw [hpres]
    · simp only [herr]
      left
      refine ⟨ite_retry_status_ne_success _, ?_⟩
      rw [hpres]
  · left
    exact ⟨by simp, rfl⟩

/-- Oracle that succeeds on every invocation. -/
def netAlwaysOk : Nat → Int → Except String JVal :=
  fun _ _ => Except.ok (.jnum 1)

/-- State whose cache holds one entry under the select key of table
`t`, as left by a cached read. -/
def cachedState : MWState :=
  { emptyState with requestCache := [("t:select:\x7b\x7d", ⟨.jnum 7, 0⟩)] }

/-- C1 counterexample: a mutation whose attempts all fail returns with
status `"retry_exhausted"` but the cache entry under the table's prefix
is STILL there — the invalidation loop sits after the early `return` of
the error branch, so it only runs on success, contradicting the claim
that no `T:`-prefixed entry remains after a retry-exhausted failure. -/
theorem c1_counterexample :
    ((middlewareInsert "t" {} netAlwaysFail 0 0 cachedState).1).status =
      "retry_exhausted" ∧
    jsStartsWith "t:select:\x7b\x7d" ("t" ++ ":") = true ∧
    mapGet ((middlewareInsert "t" {} netAlwaysFail 0 0 cachedState).2).requestCache
      "t:select:\x7b\x7d" = some ⟨.jnum 7, 0⟩ := by
  decide

/-- C1 (amended): for each mutation operation, when the call returns
with status `"success"` no cache entry whose key starts with `table:`
remains; on every non-success return (rate-limit denial, error, or
retry-exhausted failure) the request cache is left exactly as it was —
invalidation happens only on the success path. -/
theorem c1_mutation_invalidation (table : String) (options : MiddlewareOptions)
    (net : Nat → Int → Except String JVal) (netd : Nat → Int → Except String Unit)
    (now elapsed : Int) (w : MWState) :
    ((((middlewareInsert table options net now elapsed w).1).status = "success" →
        ∀ key, jsStartsWith key (table ++ ":") = true →
          mapGet ((middlewareInsert table options net now elapsed w).2).requestCache key =
            none) ∧
      (((middlewareInsert table options net now elapsed w).1).status ≠ "success" →
        ((middlewareInsert table options net now elapsed w).2).requestCache =
          w.requestCache)) ∧
    ((((middlewareUpdate table options net now elapsed w).1).status = "success" →
        ∀ key, jsStartsWith key (table ++ ":") = true →
          mapGet ((middlewareUpdate table options net now elapsed w).2).requestCache key =
            none) ∧
      (((middlewareUpdate table options net now elapsed w).1).status ≠ "success" →
        ((middlewareUpdate table options net now elapsed w).2).requestCache =
          w.requestCache)) ∧
    ((((middlewareDelete table options netd now elapsed w).1).status = "success" →
        ∀ key, jsStartsWith key (table ++ ":") = true →
          mapGet ((middlewareDelete table options netd now elapsed w).2).requestCache key =
            none) ∧
      (((middlewareDelete table options netd now elapsed w).1).status ≠ "success" →
        ((middlewareDelete table options netd now elapsed w).2).requestCache =
          w.requestCache)) := by
  refine ⟨?_, ?_, ?_⟩
  · rcases middlewareInsert_cacheCases table options net now elapsed w with
      ⟨hs, hc⟩ | ⟨hs, hc⟩
    · exact ⟨fun h => absurd h hs, fun _ => hc⟩
    · refine ⟨fun _ key hk => ?_, fun h => absurd hs h⟩
      rw [hc]
      exact mapGet_clearTableCache table key w.requestCache hk
  · rcases middlewareUpdate_cacheCases table options net now elapsed w with
      ⟨hs, hc⟩ | ⟨hs, hc⟩
    · exact ⟨fun h => absurd h hs, fun _ => hc⟩
    · refine ⟨fun _ key hk => ?_, fun h => absurd hs h⟩
      rw [hc]
      exact mapGet_clearTableCache table key w.requestCache hk
  · rcases middlewareDelete_cacheCases table options netd now elapsed w with
      ⟨hs, hc⟩ | ⟨hs, hc⟩
    · exact ⟨fun h => absurd h hs, fun _ => hc⟩
    · refine ⟨fun _ key hk => ?_, fun h => absurd hs h⟩
      rw [hc]
      exact mapGet_clearTableCache table key w.requestCache hk

/-- C1 witness: a successful insert removes the `t:`-prefixed cache
entry; a failed insert leaves the cache exactly as before. -/
theorem c1_mutation_invalidation_witness :
    ((middlewareInsert "t" {} netAlwaysOk 0 0 cachedState).1).status = "success" ∧
    jsStartsWith "t:select:\x7b\x7d" ("t" ++ ":") = true ∧
    mapGet ((middlewareInsert "t" {} netAlwaysOk 0 0 cachedState).2).requestCache
      "t:select:\x7b\x7d" = none ∧
    ((middlewareInsert "t" {} netAlwaysFail 0 0 cachedState).1).status ≠ "success" ∧
    ((middlewareInsert "t" {} netAlwaysFail 0 0 cachedState).2).requestCache =
      cachedState.requestCache :=
  ⟨by decide, by decide,
   (c1_mutation_invalidation "t" {} netAlwaysOk (fun _ _ => Except.ok ()) 0 0
      cachedState).1.1 (by decide) "t:select:\x7b\x7d" (by decide),
   by decide,
   (c1_mutation_invalidation "t" {} netAlwaysFail (fun _ _ => Except.ok ()) 0 0
      cachedState).1.2 (by decide)⟩

/-- Case analysis of `middlewareAuthSignOut`: a failed remote sign-out
returns the `"error"` envelope with the cache untouched
(`requestCache.clear()` is on the success path only); a successful one
returns `"success"` with the entire cache cleared. -/
theorem middlewareAuthSignOut_cases (options : MiddlewareOptions)
    (net : Nat → Except String Unit) (now elapsed : Int) (w : MWState) :
    (((middlewareAuthSignOut options net now elapsed w).1).status = "error" ∧
     ((middlewareAuthSignOut options net now elapsed w).2).requestCache =
       w.requestCache) ∨
    (((middlewareAuthSignOut options net now elapsed w).1).status = "success" ∧
     ((middlewareAuthSignOut options net now elapsed w).2).requestCache = []) := by
  have hpres := withRetry_requestCache (executeSignOut net) (fun s => rfl)
    (mergeOptions DEFAULT_OPTIONS options).maxRetries w
  simp only [middlewareAuthSignOut, middlewareAuthSignOutBody]
  rcases herr : (withRetry (executeSignOut net)
      (mergeOptions DEFAULT_OPTIONS options).maxRetries w).1.error with _ | e
  · simp only [herr]
    right
    exact ⟨trivial, trivial⟩
  · simp only [herr]
    left
    exact ⟨trivial, hpres⟩

/-- C2 counterexample: when the remote sign-out fails after exhausting
retries, the operation returns the `"error"` envelope but the request
cache is NOT cleared — the pre-existing entry is still present,
contradicting the claim that the entire cache is cleared before every
sign-out return. -/
theorem c2_counterexample :
    ((middlewareAuthSignOut {} (fun _ => Except.error "boom") 0 0 cachedState).1).status =
      "error" ∧
    ((middlewareAuthSignOut {} (fun _ => Except.error "boom") 0 0 cachedState).2).requestCache ≠
      [] ∧
    mapGet ((middlewareAuthSignOut {} (fun _ => Except.error "boom") 0 0
        cachedState).2).requestCache "t:select:\x7b\x7d" = some ⟨.jnum 7, 0⟩ := by
  decide

/-- C2 (amended): every sign-out invocation returns an envelope rather
than propagating an exception (the try-block always returns `Except.ok`
and the status is `"success"` or `"error"`), but the entire request
cache is cleared only when the remote sign-out succeeded; when it fails
after exhausting retries the cache is left untouched. -/
theorem c2_signout_cache_clearing (options : MiddlewareOptions)
    (net : Nat → Except String Unit) (now elapsed : Int) (w : MWState) :
    (∃ r, middlewareAuthSignOutBody (mergeOptions DEFAULT_OPTIONS options) net
        now now elapsed w = Except.ok r) ∧
    (((middlewareAuthSignOut options net now elapsed w).1).status = "success" ∨
      ((middlewareAuthSignOut options net now elapsed w).1).status = "error") ∧
    (((middlewareAuthSignOut options net now elapsed w).1).status = "success" →
      ((middlewareAuthSignOut options net now elapsed w).2).requestCache = []) ∧
    (((middlewareAuthSignOut options net now elapsed w).1).status ≠ "success" →
      ((middlewareAuthSignOut options net now elapsed w).2).requestCache =
        w.requestCache) := by
  obtain ⟨r, hr, _⟩ := middlewareAuthSignOutBody_isOk
    (mergeOptions DEFAULT_OPTIONS options) net now now elapsed w
  rcases middlewareAuthSignOut_cases options net now elapsed w with
    ⟨hs, hc⟩ | ⟨hs, hc⟩
  · refine ⟨⟨r, hr⟩, Or.inr hs, fun h => ?_, fun _ => hc⟩
    rw [hs] at h
    simp at h
  · exact ⟨⟨r, hr⟩, Or.inl hs, fun _ => hc, fun h => absurd hs h⟩

/-- C2 witness: a successful sign-out clears the cache; a failed one
returns the error envelope with the cache intact. -/
theorem c2_signout_cache_clearing_witness :
    (∃ r, middlewareAuthSignOutBody (mergeOptions DEFAULT_OPTIONS {})
        (fun _ => Except.error "boom") 0 0 0 cachedState = Except.ok r) ∧
    ((middlewareAuthSignOut {} (fun _ => Except.ok ()) 0 0 cachedState).1).status =
      "success" ∧
    ((middlewareAuthSignOut {} (fun _ => Except.ok ()) 0 0 cachedState).2).requestCache =
      [] ∧
    ((middlewareAuthSignOut {} (fun _ => Except.error "boom") 0 0 cachedState).1).status ≠
      "success" ∧
    ((middlewareAuthSignOut {} (fun _ => Except.error "boom") 0 0
        cachedState).2).requestCache = cachedState.requestCache :=
  ⟨(c2_signout_cache_clearing {} (fun _ => Except.error "boom") 0 0 cachedState).1,
   by decide,
   (c2_signout_cache_clearing {} (fun _ => Except.ok ()) 0 0 cachedState).2.2.1 (by decide),
   by decide,
   (c2_signout_cache_clearing {} (fun _ => Except.error "boom") 0 0 cachedState).2.2.2
     (by decide)⟩

/-- C5: for an admitted, cache-enabled read with a stored entry for its
key: (a) when the entry is fresh (`now - timestamp < cacheDuration`)
the cached payload is returned with `retries = 0` and the network is
NOT invoked, the cache left unchanged; (b) when the entry is stale
(`now - timestamp ≥ cacheDuration`) the underlying function is executed
again (one network call when it succeeds immediately) and the slot is
overwritten with the new payload and timestamp `now`; (c) a stale entry
is only ignored, never removed: if the re-execution keeps failing, the
old entry is still stored when the call returns. -/
theorem c5_cached_read (table : String) (filters : Option JVal)
    (options : MiddlewareOptions) (net : Nat → Int → Except String JVal)
    (now elapsed : Int) (w : MWState) (entry : CacheEntry) (dur : Int) (v : JVal)
    (es : Nat → String)
    (hadm : (checkRateLimit now (table ++ ":select") w.rateLimitMap).1 = true)
    (hcache : jsTruthy (mergeOptions DEFAULT_OPTIONS options).cache = true)
    (hdur : (mergeOptions DEFAULT_OPTIONS options).cacheDuration = some dur)
    (hget : mapGet w.requestCache (generateCacheKey table "select" filters) = some entry) :
    (now - entry.timestamp < dur →
      ((middlewareSelect table filters options net now elapsed w).1).status = "success" ∧
      ((middlewareSelect table filters options net now elapsed w).1).data =
        some entry.data ∧
      ((middlewareSelect table filters options net now elapsed w).1).retries = 0 ∧
      ((middlewareSelect table filters options net now elapsed w).2).netCalls =
        w.netCalls ∧
      ((middlewareSelect table filters options net now elapsed w).2).requestCache =
        w.requestCache) ∧
    (dur ≤ now - entry.timestamp → (∀ t, net w.netCalls t = Except.ok v) →
      ((middlewareSelect table filters options net now elapsed w).1).status = "success" ∧
      ((middlewareSelect table filters options net now elapsed w).1).data = some v ∧
      ((middlewareSelect table filters options net now elapsed w).1).retries = 0 ∧
      ((middlewareSelect table filters options net now elapsed w).2).netCalls =
        w.netCalls + 1 ∧
      mapGet ((middlewareSelect table filters options net now elapsed w).2).requestCache
        (generateCacheKey table "select" filters) = some ⟨v, now⟩) ∧
    (dur ≤ now - entry.timestamp → (∀ n t, net n t = Except.error (es n)) →
      mapGet ((middlewareSelect table filters options net now elapsed w).2).requestCache
        (generateCacheKey table "select" filters) = some entry) := by
  simp only [middlewareSelect, middlewareSelectBody]
  rw [if_pos hadm, if_pos hcache, hdur]
  refine ⟨?_, ?_, ?_⟩
  · intro hfresh
    have hfn1 : withCache (generateCacheKey table "select" filters)
        (executeQuery net (jsOrInt (mergeOptions DEFAULT_OPTIONS options).timeout 30000))
        (some dur) now
        { w with rateLimitMap := (checkRateLimit now (table ++ ":select") w.rateLimitMap).2 } =
        (Except.ok entry.data,
         { w with rateLimitMap := (checkRateLimit now (table ++ ":select") w.rateLimitMap).2 }) := by
      simp only [withCache, Option.getD, hget]
      rw [if_pos hfresh]
    rw [withRetry, withRetryGo_ok _ _ _ _ _ _ _ _ hfn1]
    exact ⟨rfl, rfl, rfl, rfl, rfl⟩
  · intro hstale hnet
    have hfn2 : withCache (generateCacheKey table "select" filters)
        (executeQuery net (jsOrInt (mergeOptions DEFAULT_OPTIONS options).timeout 30000))
        (some dur) now
        { w with rateLimitMap := (checkRateLimit now (table ++ ":select") w.rateLimitMap).2 } =
        (Except.ok v,
         { w with
            rateLimitMap := (checkRateLimit now (table ++ ":select") w.rateLimitMap).2
            netCalls := w.netCalls + 1
            requestCache := mapSet w.requestCache
              (generateCacheKey table "select" filters) ⟨v, now⟩ }) := by
      simp only [withCache, executeQuery, Option.getD, hget]
      rw [if_neg (not_lt.mpr hstale), hnet]
    rw [withRetry, withRetryGo_ok _ _ _ _ _ _ _ _ hfn2]
    refine ⟨rfl, rfl, rfl, rfl, ?_⟩
    exact mapGet_mapSet _ _ _
  · intro hstale hnetf
    have hfn3 : ∀ s : MWState,
        ((withCache (generateCacheKey table "select" filters)
          (executeQuery net (jsOrInt (mergeOptions DEFAULT_OPTIONS options).timeout 30000))
          (some dur) now s).2).requestCache = s.requestCache := by
      intro s
      simp only [withCache, executeQuery, Option.getD, hnetf]
      split
      · split <;> rfl
      · rfl
    have hpres := withRetry_requestCache
      (fun s => withCache (generateCacheKey table "select" filters)
        (executeQuery net (jsOrInt (mergeOptions DEFAULT_OPTIONS options).timeout 30000))
        (some dur) now s)
      hfn3 (mergeOptions DEFAULT_OPTIONS options).maxRetries
      { w with rateLimitMap := (checkRateLimit now (table ++ ":select") w.rateLimitMap).2 }
    rcases herr : (withRetry
        (fun s => withCache (generateCacheKey table "select" filters)
          (executeQuery net (jsOrInt (mergeOptions DEFAULT_OPTIONS options).timeout 30000))
          (some dur) now s)
        (mergeOptions DEFAULT_OPTIONS options).maxRetries
        { w with rateLimitMap := (checkRateLimit now (table ++ ":select") w.rateLimitMap).2 }).1.error
      with _ | e
    · simp only [herr]
      rw [hpres]
      exact hget
    · simp only [herr]
      rw [hpres]
      exact hget

/-- C5 witness: with the default 5-minute duration and a slot cached at
time 0 — a read at time 0 hits the cache (no network call, `retries =
0`, same payload); a read at time 400000 treats the entry as stale,
re-executes (one network call) and overwrites the slot; and when the
re-execution keeps failing the stale entry is still stored. -/
theorem c5_cached_read_witness :
    (checkRateLimit 0 ("t" ++ ":select") cachedState.rateLimitMap).1 = true ∧
    jsTruthy (mergeOptions DEFAULT_OPTIONS {}).cache = true ∧
    (mergeOptions DEFAULT_OPTIONS {}).cacheDuration = some 300000 ∧
    mapGet cachedState.requestCache (generateCacheKey "t" "select" none) =
      some ⟨.jnum 7, 0⟩ ∧
    (0 : Int) - (0 : Int) < 300000 ∧
    (((middlewareSelect "t" none {} netAlwaysOk 0 0 cachedState).1).status = "success" ∧
      ((middlewareSelect "t" none {} netAlwaysOk 0 0 cachedState).1).data =
        some (.jnum 7) ∧
      ((middlewareSelect "t" none {} netAlwaysOk 0 0 cachedState).1).retries = 0 ∧
      ((middlewareSelect "t" none {} netAlwaysOk 0 0 cachedState).2).netCalls =
        cachedState.netCalls ∧
      ((middlewareSelect "t" none {} netAlwaysOk 0 0 cachedState).2).requestCache =
        cachedState.requestCache) ∧
    (300000 : Int) ≤ (400000 : Int) - (0 : Int) ∧
    (((middlewareSelect "t" none {} netAlwaysOk 400000 0 cachedState).1).status =
        "success" ∧
      ((middlewareSelect "t" none {} netAlwaysOk 400000 0 cachedState).1).data =
        some (.jnum 1) ∧
      ((middlewareSelect "t" none {} netAlwaysOk 400000 0 cachedState).1).retries = 0 ∧
      ((middlewareSelect "t" none {} netAlwaysOk 400000 0 cachedState).2).netCalls =
        cachedState.netCalls + 1 ∧
      mapGet ((middlewareSelect "t" none {} netAlwaysOk 400000 0
          cachedState).2).requestCache (generateCacheKey "t" "select" none) =
        some ⟨.jnum 1, 400000⟩) ∧
    mapGet ((middlewareSelect "t" none {} netAlwaysFail 400000 0
        cachedState).2).requestCache (generateCacheKey "t" "select" none) =
      some ⟨.jnum 7, 0⟩ :=
  ⟨by decide, by decide, by decide, by decide, by decide,
   (c5_cached_read "t" none {} netAlwaysOk 0 0 cachedState ⟨.jnum 7, 0⟩ 300000
      (.jnum 1) (fun _ => "boom") (by decide) (by decide) (by decide) (by decide)).1
     (by decide),
   by decide,
   (c5_cached_read "t" none {} netAlwaysOk 400000 0 cachedState ⟨.jnum 7, 0⟩ 300000
      (.jnum 1) (fun _ => "boom") (by decide) (by decide) (by decide) (by decide)).2.1
     (by decide) (fun _ => rfl),
   (c5_cached_read "t" none {} netAlwaysFail 400000 0 cachedState ⟨.jnum 7, 0⟩ 300000
      (.jnum 1) (fun _ => "boom") (by decide) (by decide) (by decide) (by decide)).2.2
     (by decide) (fun _ _ => rfl)⟩
